import Mathlib

/-!
Verification of the priority-queue elevator dispatch engine.

The Python source (constants.py, queue_manager.py, elevator_controller.py,
emergency_handler.py, elevator_system.py) is shallowly embedded below.
Floors are unbounded integers (`Int`), Python sets are embedded as
duplicate-free lists in insertion order (only membership, `min`/`max` and
explicitly sorted views are ever observed), the `request_times` dictionary
is embedded as the list of its keys (only key presence is ever observed:
it drives the served counters), and Python's stable `list.sort` is embedded
as `List.insertionSort` (which is stable with a `≤`-style relation).
-/

namespace PQLift

/-- Direction of travel of the elevator car (constants.py, class `Direction`). -/
inductive Direction
  | up
  | down
  | idle
deriving DecidableEq, Repr

/-- Elevator door states (constants.py, class `DoorState`). -/
inductive DoorState
  | opened
  | closed
  | opening
  | closing
deriving DecidableEq, Repr

/-- Keys of the `request_times` dictionary of queue_manager.py
(`_get_request_key` plus the request type that produced the key).
Only the presence of a key is observable in the embedded behaviour
(it decides whether a served counter is incremented), so the dictionary
is embedded as the list of its keys. -/
inductive RKey
  | internal (floor : Int)
  | externalUp (floor : Int)
  | externalDown (floor : Int)
  | emergency (fromFloor toFloor : Int)
deriving DecidableEq, Repr

/-- Insert into a set embedded as a duplicate-free list (no-op when present). -/
def insertSet {α : Type} [DecidableEq α] (x : α) (l : List α) : List α :=
  if x ∈ l then l else l ++ [x]

/-- Python's `min` over a collection of floors. -/
def listMin : List Int → Option Int
  | [] => none
  | x :: xs => some (xs.foldl min x)

/-- Python's `max` over a collection of floors. -/
def listMax : List Int → Option Int
  | [] => none
  | x :: xs => some (xs.foldl max x)

/-- Python's `min(l, key=lambda x: abs(x - cf))`: the first element of
minimal distance to `cf`. -/
def minByDist (cf : Int) : List Int → Option Int
  | [] => none
  | x :: xs =>
      some (xs.foldl (fun best y =>
        if (y - cf).natAbs < (best - cf).natAbs then y else best) x)

/-- State of queue_manager.py, class `QueueManager`.  The wait-time floats
(`time.time()` values) are not modelled: the only observable consequence of
the `request_times` dictionary in the engine is whether a key is present
when a request is removed, which decides the served counters, so the
dictionary is carried as its key set and `stats` as the two served
counters. -/
structure QueueManager where
  num_floors : Int
  internal_requests : List Int
  external_up_requests : List Int
  external_down_requests : List Int
  emergency_requests : List (Int × Int)
  paused_internal : List Int
  paused_external_up : List Int
  paused_external_down : List Int
  is_paused : Bool
  request_times : List RKey
  normal_served : Nat
  emergency_served : Nat
deriving DecidableEq, Repr

/-- `QueueManager.__init__`. -/
def QueueManager.init (num_floors : Int) : QueueManager :=
  { num_floors := num_floors
    internal_requests := []
    external_up_requests := []
    external_down_requests := []
    emergency_requests := []
    paused_internal := []
    paused_external_up := []
    paused_external_down := []
    is_paused := false
    request_times := []
    normal_served := 0
    emergency_served := 0 }

/-- `QueueManager.add_internal_request`. -/
def QueueManager.add_internal_request (q : QueueManager) (floor : Int) :
    Bool × QueueManager :=
  if ¬ (1 ≤ floor ∧ floor ≤ q.num_floors) then (false, q)
  else if q.is_paused then
    (true, { q with paused_internal := insertSet floor q.paused_internal })
  else if floor ∈ q.internal_requests then (true, q)
  else
    (true, { q with
      internal_requests := q.internal_requests ++ [floor]
      request_times := insertSet (RKey.internal floor) q.request_times })

/-- `QueueManager.add_external_request`.  The source compares the direction
string with `"UP"` and treats every other direction as `DOWN`. -/
def QueueManager.add_external_request (q : QueueManager) (floor : Int)
    (direction : Direction) : Bool × QueueManager :=
  if ¬ (1 ≤ floor ∧ floor ≤ q.num_floors) then (false, q)
  else if q.is_paused then
    if direction = Direction.up then
      (true, { q with paused_external_up := insertSet floor q.paused_external_up })
    else
      (true, { q with paused_external_down := insertSet floor q.paused_external_down })
  else if direction = Direction.up then
    if floor ∈ q.external_up_requests then (true, q)
    else
      (true, { q with
        external_up_requests := q.external_up_requests ++ [floor]
        request_times := insertSet (RKey.externalUp floor) q.request_times })
  else
    if floor ∈ q.external_down_requests then (true, q)
    else
      (true, { q with
        external_down_requests := q.external_down_requests ++ [floor]
        request_times := insertSet (RKey.externalDown floor) q.request_times })

/-- `QueueManager.add_emergency_request`.  An `EmergencyRequest` compares
equal by its `(from_floor, to_floor)` pair alone (constants.py `__eq__`),
so emergency requests are embedded as pairs. -/
def QueueManager.add_emergency_request (q : QueueManager) (from_floor to_floor : Int) :
    Bool × QueueManager :=
  if ¬ (1 ≤ from_floor ∧ from_floor ≤ q.num_floors ∧
        1 ≤ to_floor ∧ to_floor ≤ q.num_floors) then (false, q)
  else if (from_floor, to_floor) ∈ q.emergency_requests then (true, q)
  else
    (true, { q with
      emergency_requests := q.emergency_requests ++ [(from_floor, to_floor)]
      request_times := insertSet (RKey.emergency from_floor to_floor) q.request_times })

/-- `QueueManager.pause_normal_requests`. -/
def QueueManager.pause_normal_requests (q : QueueManager) : QueueManager :=
  if q.is_paused then q
  else
    { q with
      paused_internal := q.internal_requests
      paused_external_up := q.external_up_requests
      paused_external_down := q.external_down_requests
      internal_requests := []
      external_up_requests := []
      external_down_requests := []
      is_paused := true }

/-- `QueueManager.resume_normal_requests`. -/
def QueueManager.resume_normal_requests (q : QueueManager) : QueueManager :=
  if q.is_paused then
    { q with
      internal_requests := q.paused_internal
      external_up_requests := q.paused_external_up
      external_down_requests := q.paused_external_down
      paused_internal := []
      paused_external_up := []
      paused_external_down := []
      is_paused := false }
  else q

/-- `QueueManager.remove_internal_request` (the returned wait time is not
modelled; its only engine-visible effect is the served counter, which is
incremented exactly when the key is present). -/
def QueueManager.remove_internal_request (q : QueueManager) (floor : Int) :
    QueueManager :=
  let q := { q with internal_requests := q.internal_requests.filter (fun f => f ≠ floor) }
  if RKey.internal floor ∈ q.request_times then
    { q with
      request_times := q.request_times.filter (fun k => k ≠ RKey.internal floor)
      normal_served := q.normal_served + 1 }
  else q

/-- `QueueManager.remove_external_request`. -/
def QueueManager.remove_external_request (q : QueueManager) (floor : Int)
    (direction : Direction) : QueueManager :=
  if direction = Direction.up then
    let q := { q with
      external_up_requests := q.external_up_requests.filter (fun f => f ≠ floor) }
    if RKey.externalUp floor ∈ q.request_times then
      { q with
        request_times := q.request_times.filter (fun k => k ≠ RKey.externalUp floor)
        normal_served := q.normal_served + 1 }
    else q
  else
    let q := { q with
      external_down_requests := q.external_down_requests.filter (fun f => f ≠ floor) }
    if RKey.externalDown floor ∈ q.request_times then
      { q with
        request_times := q.request_times.filter (fun k => k ≠ RKey.externalDown floor)
        normal_served := q.normal_served + 1 }
    else q

/-- `QueueManager.remove_emergency_request` (`list.remove` deletes the first
occurrence; guarded by a membership test in the source). -/
def QueueManager.remove_emergency_request (q : QueueManager) (from_floor to_floor : Int) :
    QueueManager :=
  let q :=
    if (from_floor, to_floor) ∈ q.emergency_requests then
      { q with emergency_requests := q.emergency_requests.erase (from_floor, to_floor) }
    else q
  if RKey.emergency from_floor to_floor ∈ q.request_times then
    { q with
      request_times := q.request_times.filter (fun k => k ≠ RKey.emergency from_floor to_floor)
      emergency_served := q.emergency_served + 1 }
  else q

/-- `QueueManager.has_emergency_requests`. -/
def QueueManager.has_emergency_requests (q : QueueManager) : Bool :=
  ¬ q.emergency_requests = []

/-- `QueueManager.get_all_requests`: the status view of the three live
normal sets (internal and external-up ascending, external-down descending). -/
def QueueManager.get_all_requests (q : QueueManager) :
    List Int × List Int × List Int :=
  (q.internal_requests.insertionSort (fun a b => a ≤ b),
   q.external_up_requests.insertionSort (fun a b => a ≤ b),
   q.external_down_requests.insertionSort (fun a b => b ≤ a))

/-- State of elevator_controller.py, class `ElevatorController`.
`stats.total_floors_traveled` and the passenger counter are the only parts
of the controller's `ElevatorStats` the engine touches. -/
structure ElevatorController where
  num_floors : Int
  current_floor : Int
  direction : Direction
  door_state : DoorState
  is_moving : Bool
  target_floor : Option Int
  door_timer : Nat
  door_open_duration : Nat
  total_floors_traveled : Nat
  current_passengers : Nat
  max_capacity : Nat
deriving DecidableEq, Repr

/-- `ElevatorController.__init__`. -/
def ElevatorController.init (num_floors start_floor : Int) : ElevatorController :=
  { num_floors := num_floors
    current_floor := start_floor
    direction := Direction.idle
    door_state := DoorState.closed
    is_moving := false
    target_floor := none
    door_timer := 0
    door_open_duration := 2
    total_floors_traveled := 0
    current_passengers := 0
    max_capacity := 8 }

/-- `ElevatorController.open_doors`. -/
def ElevatorController.open_doors (c : ElevatorController) : ElevatorController :=
  if c.door_state = DoorState.closed then
    { c with door_state := DoorState.opening, door_timer := 1 }
  else c

/-- `ElevatorController.close_doors`. -/
def ElevatorController.close_doors (c : ElevatorController) : ElevatorController :=
  if c.door_state = DoorState.opened then
    { c with door_state := DoorState.closing, door_timer := 1 }
  else c

/-- `ElevatorController.update_doors`.  The Python timer is decremented and
compared with `<= 0`; every state that decrements is entered with a positive
timer, so natural-number truncated subtraction with a `= 0` test is exact. -/
def ElevatorController.update_doors (c : ElevatorController) : Bool × ElevatorController :=
  match c.door_state with
  | DoorState.opening =>
      let t := c.door_timer - 1
      if t = 0 then
        (true, { c with door_state := DoorState.opened, door_timer := c.door_open_duration })
      else (true, { c with door_timer := t })
  | DoorState.opened =>
      let t := c.door_timer - 1
      if t = 0 then
        (true, { c with door_state := DoorState.closing, door_timer := 1 })
      else (true, { c with door_timer := t })
  | DoorState.closing =>
      let t := c.door_timer - 1
      if t = 0 then
        (true, { c with door_state := DoorState.closed, door_timer := t })
      else (true, { c with door_timer := t })
  | DoorState.closed => (false, c)

/-- `ElevatorController.move_to_floor`. -/
def ElevatorController.move_to_floor (c : ElevatorController) (target_floor : Int) :
    ElevatorController :=
  if target_floor = c.current_floor then
    { c with direction := Direction.idle, target_floor := none }
  else if ¬ (1 ≤ target_floor ∧ target_floor ≤ c.num_floors) then c
  else
    { c with
      target_floor := some target_floor
      direction := if target_floor > c.current_floor then Direction.up else Direction.down
      is_moving := true }

/-- `ElevatorController.step`: one step of physical movement; `true` means
the car arrived at its target this step. -/
def ElevatorController.step (c : ElevatorController) : Bool × ElevatorController :=
  if c.door_state ≠ DoorState.closed then
    (false, c.update_doors.2)
  else
    match c.target_floor with
    | none => (false, { c with is_moving := false, direction := Direction.idle })
    | some t =>
        if c.current_floor = t then
          (true, { c with is_moving := false, target_floor := none })
        else
          match c.direction with
          | Direction.up =>
              (false, { c with
                current_floor := c.current_floor + 1
                total_floors_traveled := c.total_floors_traveled + 1 })
          | Direction.down =>
              (false, { c with
                current_floor := c.current_floor - 1
                total_floors_traveled := c.total_floors_traveled + 1 })
          | Direction.idle => (false, c)

/-- `ElevatorStats.add_passenger` as invoked through
`ElevatorController.add_passenger` (the boolean result is discarded at every
engine call site). -/
def ElevatorController.add_passenger (c : ElevatorController) : ElevatorController :=
  if c.current_passengers < c.max_capacity then
    { c with current_passengers := c.current_passengers + 1 }
  else c

/-- `ElevatorStats.remove_passenger` as invoked through
`ElevatorController.remove_passenger`. -/
def ElevatorController.remove_passenger (c : ElevatorController) : ElevatorController :=
  if 0 < c.current_passengers then
    { c with current_passengers := c.current_passengers - 1 }
  else c

/-- The grouping pass of `EmergencyHandler.sort_emergency_requests`
(emergency_handler.py lines 54-108): the source appends each request of the
emergency list, in order, to one of three group lists via an if/elif chain;
the structural recursion below conses in the same traversal order.  The
final `else` branch feeding group C is kept even though the preceding
trichotomy on `from_floor` makes it unreachable. -/
def group_emergency (cf : Int) (d : Direction) :
    List (Int × Int) → List (Int × Int) × List (Int × Int) × List (Int × Int)
  | [] => ([], [], [])
  | r :: rest =>
      let (ga, gb, gc) := group_emergency cf d rest
      match d with
      | Direction.up =>
          if r.1 > cf then (r :: ga, gb, gc)
          else if r.1 < cf then (ga, r :: gb, gc)
          else if r.1 = cf then
            (if r.2 > cf then (r :: ga, gb, gc) else (ga, r :: gb, gc))
          else (ga, gb, r :: gc)
      | Direction.down =>
          if r.1 < cf then (r :: ga, gb, gc)
          else if r.1 > cf then (ga, r :: gb, gc)
          else if r.1 = cf then
            (if r.2 < cf then (r :: ga, gb, gc) else (ga, r :: gb, gc))
          else (ga, gb, r :: gc)
      | Direction.idle =>
          if r.1 > cf then (r :: ga, gb, gc)
          else if r.1 < cf then (ga, r :: gb, gc)
          else
            (if r.2 > cf then (r :: ga, gb, gc) else (ga, r :: gb, gc))

/-- `EmergencyHandler.sort_emergency_requests` (grouping then the three
stable sorts; Python's stable `list.sort` with `reverse=True` keeps
equal-key elements in original order, exactly as `insertionSort` with the
flipped `≤` relation does). -/
def sort_emergency_requests (reqs : List (Int × Int)) (cf : Int) (d : Direction) :
    List (Int × Int) × List (Int × Int) × List (Int × Int) :=
  let (ga, gb, gc) := group_emergency cf d reqs
  let gaS :=
    match d with
    | Direction.up => ga.insertionSort (fun x y => x.1 ≤ y.1)
    | Direction.down => ga.insertionSort (fun x y => y.1 ≤ x.1)
    | Direction.idle => ga.insertionSort (fun x y => (x.1 - cf).natAbs ≤ (y.1 - cf).natAbs)
  let gbS :=
    match d with
    | Direction.up => gb.insertionSort (fun x y => y.1 ≤ x.1)
    | Direction.down => gb.insertionSort (fun x y => x.1 ≤ y.1)
    | Direction.idle => gb.insertionSort (fun x y => (x.1 - cf).natAbs ≤ (y.1 - cf).natAbs)
  let gcS := gc.insertionSort (fun x y => (x.2 - cf).natAbs ≤ (y.2 - cf).natAbs)
  (gaS, gbS, gcS)

/-- `EmergencyHandler.get_next_emergency_target`: `(target, pickupLeg)`;
`pickupLeg = true` means the car is heading to the pickup floor. -/
def get_next_emergency_target (reqs : List (Int × Int)) (cf : Int) (d : Direction) :
    Option Int × Bool :=
  if reqs = [] then (none, false)
  else
    let (ga, gb, gc) := sort_emergency_requests reqs cf d
    match ga with
    | r :: _ => if cf = r.1 then (some r.2, false) else (some r.1, true)
    | [] =>
        match gb with
        | r :: _ => if cf = r.1 then (some r.2, false) else (some r.1, true)
        | [] =>
            match gc with
            | r :: _ => if cf = r.1 then (some r.2, false) else (some r.1, true)
            | [] => (none, false)

/-- The head of the first non-empty group of `sort_emergency_requests`,
in order A, B, C: the request both `get_next_emergency_target` and the
pickup-recording block of `ElevatorSystem.get_next_target` select. -/
def first_group_head (reqs : List (Int × Int)) (cf : Int) (d : Direction) :
    Option (Int × Int) :=
  match sort_emergency_requests reqs cf d with
  | (r :: _, _, _) => some r
  | ([], r :: _, _) => some r
  | ([], [], r :: _) => some r
  | ([], [], []) => none

/-- State of elevator_system.py, class `ElevatorSystem`, with the
`EmergencyHandler` fields (`emergency_mode`, `emergency_count`) inlined;
the handler holds no other state.  The event log and the speed multiplier
are presentational and not modelled. -/
structure ElevatorSystem where
  num_floors : Int
  controller : ElevatorController
  queue_manager : QueueManager
  emergency_mode : Bool
  emergency_count : Nat
  current_emergency_pickup : Option (Int × Int)
  current_emergency_destination : Option (Int × Int)
  is_paused : Bool
deriving DecidableEq, Repr

/-- `ElevatorSystem.__init__` (the controller is created idle and then
`set_direction(start_direction)` is applied). -/
def ElevatorSystem.init (num_floors start_floor : Int) (start_direction : Direction) :
    ElevatorSystem :=
  { num_floors := num_floors
    controller := { ElevatorController.init num_floors start_floor with
                      direction := start_direction }
    queue_manager := QueueManager.init num_floors
    emergency_mode := false
    emergency_count := 0
    current_emergency_pickup := none
    current_emergency_destination := none
    is_paused := false }

/-- `EmergencyHandler.trigger_emergency`. -/
def ElevatorSystem.trigger_emergency (s : ElevatorSystem) : ElevatorSystem :=
  if s.emergency_mode = true then s
  else
    { s with
      emergency_mode := true
      queue_manager := s.queue_manager.pause_normal_requests
      emergency_count := s.emergency_count + 1 }

/-- `EmergencyHandler.end_emergency_mode`. -/
def ElevatorSystem.end_emergency_mode (s : ElevatorSystem) : ElevatorSystem :=
  if s.emergency_mode = true ∧ s.queue_manager.emergency_requests = [] then
    { s with
      emergency_mode := false
      queue_manager := s.queue_manager.resume_normal_requests }
  else s

/-- `EmergencyHandler.complete_emergency_request`. -/
def ElevatorSystem.complete_emergency_request (s : ElevatorSystem)
    (from_floor to_floor : Int) : ElevatorSystem :=
  let s := { s with
    queue_manager := s.queue_manager.remove_emergency_request from_floor to_floor }
  if ¬ s.queue_manager.has_emergency_requests then s.end_emergency_mode else s

/-- `ElevatorSystem.add_internal_request`. -/
def ElevatorSystem.add_internal_request (s : ElevatorSystem) (floor : Int) :
    Bool × ElevatorSystem :=
  if s.emergency_mode = true then (false, s)
  else
    let (result, q) := s.queue_manager.add_internal_request floor
    (result, { s with queue_manager := q })

/-- `ElevatorSystem.add_external_request`. -/
def ElevatorSystem.add_external_request (s : ElevatorSystem) (floor : Int)
    (direction : Direction) : Bool × ElevatorSystem :=
  if s.emergency_mode = true then (false, s)
  else
    let (result, q) := s.queue_manager.add_external_request floor direction
    (result, { s with queue_manager := q })

/-- `ElevatorSystem.add_emergency_request`. -/
def ElevatorSystem.add_emergency_request (s : ElevatorSystem) (from_floor to_floor : Int) :
    Bool × ElevatorSystem :=
  let (result, q) := s.queue_manager.add_emergency_request from_floor to_floor
  let s := { s with queue_manager := q }
  (result, if result then s.trigger_emergency else s)

/-- `ElevatorSystem._get_next_normal_target`, external-request section
(elevator_system.py lines 153-186); reached only when the internal block
did not return. -/
def normal_external_target (q : QueueManager) (cf : Int) (d : Direction) : Option Int :=
  match d with
  | Direction.up =>
      let candidates := q.external_up_requests.filter (fun f => f > cf)
      if candidates ≠ [] then listMin candidates
      else if q.external_down_requests ≠ [] then listMax q.external_down_requests
      else if q.internal_requests ≠ [] then listMax q.internal_requests
      else none
  | Direction.down =>
      let candidates := q.external_down_requests.filter (fun f => f < cf)
      if candidates ≠ [] then listMax candidates
      else if q.external_up_requests ≠ [] then listMin q.external_up_requests
      else if q.internal_requests ≠ [] then listMin q.internal_requests
      else none
  | Direction.idle =>
      minByDist cf (q.external_up_requests ++ q.external_down_requests)

/-- `ElevatorSystem._get_next_normal_target` (internal requests first,
then the external section; the redundant inner nonemptiness re-tests of the
source are kept). -/
def get_next_normal_target (q : QueueManager) (cf : Int) (d : Direction) : Option Int :=
  if q.internal_requests ≠ [] then
    match d with
    | Direction.up =>
        let candidates := q.internal_requests.filter (fun f => f > cf)
        if candidates ≠ [] then listMin candidates
        else if q.internal_requests ≠ [] then listMax q.internal_requests
        else normal_external_target q cf d
    | Direction.down =>
        let candidates := q.internal_requests.filter (fun f => f < cf)
        if candidates ≠ [] then listMax candidates
        else if q.internal_requests ≠ [] then listMin q.internal_requests
        else normal_external_target q cf d
    | Direction.idle => minByDist cf q.internal_requests
  else normal_external_target q cf d

/-- The pickup-recording block of `ElevatorSystem.get_next_target`
(elevator_system.py lines 101-111): re-sort the emergency requests and
remember the head of the first non-empty group as the in-progress pickup. -/
def ElevatorSystem.record_pickup (s : ElevatorSystem) : ElevatorSystem :=
  let (ga, gb, gc) := sort_emergency_requests s.queue_manager.emergency_requests
      s.controller.current_floor s.controller.direction
  match ga with
  | r :: _ => { s with current_emergency_pickup := some r }
  | [] =>
      match gb with
      | r :: _ => { s with current_emergency_pickup := some r }
      | [] =>
          match gc with
          | r :: _ => { s with current_emergency_pickup := some r }
          | [] => s

/-- `ElevatorSystem.get_next_target` after the two in-progress-leg checks
fell through: the emergency consultation and the normal-mode policy
(elevator_system.py lines 95-118). -/
def ElevatorSystem.next_target_after_legs (s : ElevatorSystem) :
    Option Int × ElevatorSystem :=
  if s.emergency_mode = true ∧ s.queue_manager.emergency_requests ≠ [] then
    match get_next_emergency_target s.queue_manager.emergency_requests
        s.controller.current_floor s.controller.direction with
    | (some target, pickupLeg) =>
        if pickupLeg then (some target, s.record_pickup) else (some target, s)
    | (none, _) =>
        if s.emergency_mode = false then
          (get_next_normal_target s.queue_manager s.controller.current_floor
            s.controller.direction, s)
        else (none, s)
  else if s.emergency_mode = false then
    (get_next_normal_target s.queue_manager s.controller.current_floor
      s.controller.direction, s)
  else (none, s)

/-- `ElevatorSystem.get_next_target` after the in-progress-destination check
fell through: the in-progress-pickup check. -/
def ElevatorSystem.next_target_after_dest (s : ElevatorSystem) :
    Option Int × ElevatorSystem :=
  match s.current_emergency_pickup with
  | some (from_floor, _) =>
      if s.controller.current_floor ≠ from_floor then (some from_floor, s)
      else s.next_target_after_legs
  | none => s.next_target_after_legs

/-- `ElevatorSystem.get_next_target`.  The in-progress destination wins,
then the in-progress pickup, then the emergency consultation (which may
record a new in-progress pickup), then the normal policy. -/
def ElevatorSystem.get_next_target (s : ElevatorSystem) :
    Option Int × ElevatorSystem :=
  match s.current_emergency_destination with
  | some (_, to_floor) =>
      if s.controller.current_floor ≠ to_floor then (some to_floor, s)
      else s.next_target_after_dest
  | none => s.next_target_after_dest

/-- The emergency-arrival block of `ElevatorSystem.step`
(elevator_system.py lines 206-234): pickup check, then destination check,
then doors. -/
def ElevatorSystem.step_emergency_arrival (s : ElevatorSystem) (new_floor : Int) :
    ElevatorSystem :=
  let pickupHit : Bool :=
    match s.current_emergency_pickup with
    | some (from_floor, _) => new_floor = from_floor
    | none => false
  let s :=
    match s.current_emergency_pickup with
    | some (from_floor, to_floor) =>
        if new_floor = from_floor then
          { s with
            current_emergency_destination := some (from_floor, to_floor)
            current_emergency_pickup := none
            controller := s.controller.add_passenger }
        else s
    | none => s
  let destHit : Bool :=
    match s.current_emergency_destination with
    | some (_, to_floor) => new_floor = to_floor
    | none => false
  let s :=
    match s.current_emergency_destination with
    | some (from_floor, to_floor) =>
        if new_floor = to_floor then
          let s := { s with
            queue_manager := s.queue_manager.remove_emergency_request from_floor to_floor }
          let s := s.complete_emergency_request from_floor to_floor
          { s with
            current_emergency_destination := none
            controller := s.controller.remove_passenger }
        else s
    | none => s
  if pickupHit || destHit then { s with controller := s.controller.open_doors } else s

/-- Abbreviation for the destination-completion path inside
`ElevatorSystem.step_emergency_arrival` (remove the request, run
`complete_emergency_request`, clear the in-progress destination, passenger
alights); used to state reduction lemmas about the arrival block. -/
def complete_arrival (s : ElevatorSystem) (from_floor to_floor : Int) : ElevatorSystem :=
  let s1 := { s with
    queue_manager := s.queue_manager.remove_emergency_request from_floor to_floor }
  let s2 := s1.complete_emergency_request from_floor to_floor
  { s2 with
    current_emergency_destination := none
    controller := s2.controller.remove_passenger }

/-- The normal-arrival block of `ElevatorSystem.step`
(elevator_system.py lines 237-262). -/
def ElevatorSystem.step_normal_arrival (s : ElevatorSystem) (new_floor : Int) :
    ElevatorSystem :=
  let hitInternal : Bool := new_floor ∈ s.queue_manager.internal_requests
  let s :=
    if new_floor ∈ s.queue_manager.internal_requests then
      { s with
        queue_manager := s.queue_manager.remove_internal_request new_floor
        controller := s.controller.remove_passenger }
    else s
  let hitUp : Bool := new_floor ∈ s.queue_manager.external_up_requests
  let s :=
    if new_floor ∈ s.queue_manager.external_up_requests then
      { s with
        queue_manager := s.queue_manager.remove_external_request new_floor Direction.up
        controller := s.controller.add_passenger }
    else s
  let hitDown : Bool := new_floor ∈ s.queue_manager.external_down_requests
  let s :=
    if new_floor ∈ s.queue_manager.external_down_requests then
      { s with
        queue_manager := s.queue_manager.remove_external_request new_floor Direction.down
        controller := s.controller.add_passenger }
    else s
  if hitInternal || hitUp || hitDown then { s with controller := s.controller.open_doors }
  else s

/-- Abbreviation for the arrival-processing tail of `ElevatorSystem.step`
(the two arrival blocks followed by target selection), used to state
reduction lemmas about the step function. -/
def arrival_process (s1 : ElevatorSystem) (nf : Int) : ElevatorSystem :=
  let s2 := if s1.emergency_mode = true then s1.step_emergency_arrival nf else s1
  let s3 := if s2.emergency_mode = false then s2.step_normal_arrival nf else s2
  let p := s3.get_next_target
  match p.1 with
  | some t => { p.2 with controller := p.2.controller.move_to_floor t }
  | none => { p.2 with controller := { p.2.controller with direction := Direction.idle } }

/-- `ElevatorSystem.step`: one simulation step; `true` means the car arrived
at a floor this step.  Note the source re-reads the emergency mode before
the normal-arrival block, so when an arrival completes the last emergency
request the normal block runs in the same step. -/
def ElevatorSystem.step (s : ElevatorSystem) : Bool × ElevatorSystem :=
  if s.is_paused then (false, s)
  else
    let (arrived, c) := s.controller.step
    let s := { s with controller := c }
    if arrived then
      let new_floor := s.controller.current_floor
      let s := if s.emergency_mode = true then s.step_emergency_arrival new_floor else s
      let s := if s.emergency_mode = false then s.step_normal_arrival new_floor else s
      let (next_target, s) := s.get_next_target
      let s :=
        match next_target with
        | some t => { s with controller := s.controller.move_to_floor t }
        | none => { s with controller := { s.controller with direction := Direction.idle } }
      (true, s)
    else (false, s)

/-- `ElevatorSystem.update`: find a target when none is set, then step. -/
def ElevatorSystem.update (s : ElevatorSystem) : Bool × ElevatorSystem :=
  if s.is_paused then (false, s)
  else
    let s :=
      if s.controller.target_floor = none then
        let (next_target, s) := s.get_next_target
        match next_target with
        | some t => { s with controller := s.controller.move_to_floor t }
        | none => s
      else s
    s.step

/-- The public operations of §6 of the spec that mutate engine state. -/
inductive Op
  | addInternal (floor : Int)
  | addExternal (floor : Int) (direction : Direction)
  | addEmergency (from_floor to_floor : Int)
  | update
  | pause
  | resume
  | togglePause
deriving DecidableEq, Repr

/-- Effect of one public operation on the engine state. -/
def applyOp (s : ElevatorSystem) : Op → ElevatorSystem
  | Op.addInternal floor => (s.add_internal_request floor).2
  | Op.addExternal floor direction => (s.add_external_request floor direction).2
  | Op.addEmergency from_floor to_floor => (s.add_emergency_request from_floor to_floor).2
  | Op.update => s.update.2
  | Op.pause => { s with is_paused := true }
  | Op.resume => { s with is_paused := false }
  | Op.togglePause => { s with is_paused := ! s.is_paused }

/-- States reachable from a well-formed construction (start floor within
`[1, N]`) by any sequence of public operations. -/
inductive Reachable : ElevatorSystem → Prop
  | init (num_floors start_floor : Int) (start_direction : Direction)
      (h1 : 1 ≤ start_floor) (h2 : start_floor ≤ num_floors) :
      Reachable (ElevatorSystem.init num_floors start_floor start_direction)
  | op (s : ElevatorSystem) (o : Op) : Reachable s → Reachable (applyOp s o)

/-- Inductive invariant of the engine, maintained by every public
operation: the wiring of the floor count, the floor and target bounds with
the direction pointing at the target, emergency mode tracking the
non-emptiness of the emergency list, the store's pause flag tracking
emergency mode, the in-progress legs referring to live emergency requests
with the committed target on the controller, mutual exclusion of the two
legs, no duplicate emergency pairs, and all stored floors within range. -/
structure Inv (s : ElevatorSystem) : Prop where
  wc : s.controller.num_floors = s.num_floors
  wq : s.queue_manager.num_floors = s.num_floors
  lo : 1 ≤ s.controller.current_floor
  hi : s.controller.current_floor ≤ s.num_floors
  target : ∀ t, s.controller.target_floor = some t →
    1 ≤ t ∧ t ≤ s.num_floors ∧
      ((s.controller.direction = Direction.up ∧ s.controller.current_floor ≤ t) ∨
       (s.controller.direction = Direction.down ∧ t ≤ s.controller.current_floor))
  mode : s.emergency_mode = true ↔ s.queue_manager.emergency_requests ≠ []
  paused : s.queue_manager.is_paused = s.emergency_mode
  pickupInv : ∀ r, s.current_emergency_pickup = some r →
    r ∈ s.queue_manager.emergency_requests ∧ s.controller.target_floor = some r.1
  destInv : ∀ r, s.current_emergency_destination = some r →
    r ∈ s.queue_manager.emergency_requests ∧ s.controller.target_floor = some r.2
  notBoth : s.current_emergency_pickup = none ∨ s.current_emergency_destination = none
  nodup : s.queue_manager.emergency_requests.Nodup
  rint : ∀ f ∈ s.queue_manager.internal_requests, 1 ≤ f ∧ f ≤ s.num_floors
  rup : ∀ f ∈ s.queue_manager.external_up_requests, 1 ≤ f ∧ f ≤ s.num_floors
  rdown : ∀ f ∈ s.queue_manager.external_down_requests, 1 ≤ f ∧ f ≤ s.num_floors
  rpint : ∀ f ∈ s.queue_manager.paused_internal, 1 ≤ f ∧ f ≤ s.num_floors
  rpup : ∀ f ∈ s.queue_manager.paused_external_up, 1 ≤ f ∧ f ≤ s.num_floors
  rpdown : ∀ f ∈ s.queue_manager.paused_external_down, 1 ≤ f ∧ f ≤ s.num_floors
  remerg : ∀ r ∈ s.queue_manager.emergency_requests,
    1 ≤ r.1 ∧ r.1 ≤ s.num_floors ∧ 1 ≤ r.2 ∧ r.2 ≤ s.num_floors

/-- Mid-tick invariant, holding right before the target-selection phase
(where the controller target has just been cleared by an arrival or was
never set): like `Inv` but with no committed target, no in-progress pickup,
and an in-progress destination only constrained to be a live request whose
destination differs from the current floor. -/
structure MidInv (s : ElevatorSystem) : Prop where
  wc : s.controller.num_floors = s.num_floors
  wq : s.queue_manager.num_floors = s.num_floors
  lo : 1 ≤ s.controller.current_floor
  hi : s.controller.current_floor ≤ s.num_floors
  tnone : s.controller.target_floor = none
  mode : s.emergency_mode = true ↔ s.queue_manager.emergency_requests ≠ []
  paused : s.queue_manager.is_paused = s.emergency_mode
  pickupNone : s.current_emergency_pickup = none
  destMid : ∀ r, s.current_emergency_destination = some r →
    r ∈ s.queue_manager.emergency_requests ∧ s.controller.current_floor ≠ r.2
  nodup : s.queue_manager.emergency_requests.Nodup
  rint : ∀ f ∈ s.queue_manager.internal_requests, 1 ≤ f ∧ f ≤ s.num_floors
  rup : ∀ f ∈ s.queue_manager.external_up_requests, 1 ≤ f ∧ f ≤ s.num_floors
  rdown : ∀ f ∈ s.queue_manager.external_down_requests, 1 ≤ f ∧ f ≤ s.num_floors
  rpint : ∀ f ∈ s.queue_manager.paused_internal, 1 ≤ f ∧ f ≤ s.num_floors
  rpup : ∀ f ∈ s.queue_manager.paused_external_up, 1 ≤ f ∧ f ≤ s.num_floors
  rpdown : ∀ f ∈ s.queue_manager.paused_external_down, 1 ≤ f ∧ f ≤ s.num_floors
  remerg : ∀ r ∈ s.queue_manager.emergency_requests,
    1 ≤ r.1 ∧ r.1 ≤ s.num_floors ∧ 1 ≤ r.2 ∧ r.2 ≤ s.num_floors

/-- Run `n` update ticks, collecting the floor of every arrival in order. -/
def runArrivals : Nat → ElevatorSystem → ElevatorSystem × List Int
  | 0, s => (s, [])
  | n + 1, s =>
      let (arrived, s1) := s.update
      let (s2, rest) := runArrivals n s1
      (s2, (if arrived then [s1.controller.current_floor] else []) ++ rest)

/-- Emergency pre-emption scenario: 10 floors, car starting at floor 3
heading up. -/
def demoStart : ElevatorSystem := ElevatorSystem.init 10 3 Direction.up

/-- The scenario after submitting external-Up(4) and external-Down(6). -/
def demoAfterNormal : ElevatorSystem :=
  ((demoStart.add_external_request 4 Direction.up).2.add_external_request 6
    Direction.down).2

/-- The scenario after additionally submitting emergency(4, 10). -/
def demoAfterEmergency1 : ElevatorSystem :=
  (demoAfterNormal.add_emergency_request 4 10).2

/-- The scenario after additionally submitting emergency(2, 1). -/
def demoAfterEmergency2 : ElevatorSystem :=
  (demoAfterEmergency1.add_emergency_request 2 1).2

/-- Basic pickup scenario: 10 floors, car at floor 3 heading up, after
submitting an external-Up request at floor 4. -/
def basicAfterRequest : ElevatorSystem :=
  ((ElevatorSystem.init 10 3 Direction.up).add_external_request 4 Direction.up).2

/-- The basic pickup scenario after one update tick. -/
def basicAfterOneTick : ElevatorSystem := basicAfterRequest.update.2

/-- The basic pickup scenario after two update ticks. -/
def basicAfterTwoTicks : ElevatorSystem := basicAfterOneTick.update.2

/-- A store state that is already paused, holding a paused internal request
at floor 5 (reached from a fresh store by `add_internal_request 5` followed
by `pause_normal_requests`). -/
def pausedStore : QueueManager :=
  (((QueueManager.init 10).add_internal_request 5).2).pause_normal_requests

/-- Group-A membership as the spec words it: the pickup floor lies strictly
ahead in the current direction of travel, and a request whose pickup floor
equals the current floor is classified by whether its destination lies
ahead.  For the Idle direction the engine treats floors above the car as
"ahead". -/
def aheadA (cf : Int) (d : Direction) (r : Int × Int) : Bool :=
  match d with
  | Direction.up => decide (r.1 > cf ∨ (r.1 = cf ∧ r.2 > cf))
  | Direction.down => decide (r.1 < cf ∨ (r.1 = cf ∧ r.2 < cf))
  | Direction.idle => decide (r.1 > cf ∨ (r.1 = cf ∧ r.2 > cf))

/-- The sort order the spec prescribes for Group A: ascending by pickup
floor when heading up, descending when heading down, nearest pickup floor
first when idle. -/
def orderA (cf : Int) (d : Direction) : (Int × Int) → (Int × Int) → Prop :=
  match d with
  | Direction.up => fun x y => x.1 ≤ y.1
  | Direction.down => fun x y => y.1 ≤ x.1
  | Direction.idle => fun x y => (x.1 - cf).natAbs ≤ (y.1 - cf).natAbs

lemma update_doors_only_doors (c : ElevatorController) :
    ∃ ds dt, (c.update_doors).2 = { c with door_state := ds, door_timer := dt } := by
  unfold ElevatorController.update_doors
  cases hd : c.door_state <;> simp [hd] <;>
    first
      | (split <;> exact ⟨_, _, rfl⟩)
      | exact ⟨_, _, rfl⟩

/-- C1: in a 10-floor system starting at floor 3 heading up, after
external-Up(4), external-Down(6), emergency(4, 10), emergency(2, 1) and
repeated updates: emergency mode is true immediately after each emergency
submission and the three normal pending sets of the status view are empty;
the arrivals are floors 4, 10, 2, 1 (the two emergency pickup/destination
pairs) followed by the restored normal requests 4 and 6; emergency mode is
false once the last emergency destination completes (after the 32nd update
here, still true one update earlier) with the paused external requests
restored; finally `emergency_served = 2` and `normal_served = 2`. -/
theorem C1_emergency_preemption :
    demoAfterEmergency1.emergency_mode = true ∧
    demoAfterEmergency2.emergency_mode = true ∧
    demoAfterEmergency2.queue_manager.get_all_requests = ([], [], []) ∧
    (runArrivals 60 demoAfterEmergency2).2 = [4, 10, 2, 1, 4, 6] ∧
    (runArrivals 32 demoAfterEmergency2).1.emergency_mode = false ∧
    (runArrivals 31 demoAfterEmergency2).1.emergency_mode = true ∧
    (runArrivals 32 demoAfterEmergency2).1.queue_manager.external_up_requests = [4] ∧
    (runArrivals 32 demoAfterEmergency2).1.queue_manager.external_down_requests = [6] ∧
    (runArrivals 60 demoAfterEmergency2).1.queue_manager.emergency_served = 2 ∧
    (runArrivals 60 demoAfterEmergency2).1.queue_manager.normal_served = 2 := by
  decide

/-- C2, counterexample: after exactly one update of the basic pickup
scenario the claimed post-state does not hold — the doors are not opening,
the external-up request at floor 4 is still pending, and the normal-served
counter is not 1 (the tick that moves the car to floor 4 does not yet
report the arrival). -/
theorem C2_counterexample :
    ¬ (basicAfterOneTick.controller.door_state = DoorState.opening ∧
       basicAfterOneTick.queue_manager.external_up_requests = [] ∧
       basicAfterOneTick.queue_manager.normal_served = 1) := by
  decide

/-- C2, amended: after one update the car is at floor 4 but the doors are
still closed, the external-up request is still pending and no normal
request has been served; the arrival is reported on the second update,
which opens the doors, removes the request and sets `normal_served = 1`. -/
theorem C2_basic_pickup_amended :
    (basicAfterOneTick.controller.current_floor = 4 ∧
     basicAfterOneTick.controller.door_state = DoorState.closed ∧
     basicAfterOneTick.queue_manager.external_up_requests = [4] ∧
     basicAfterOneTick.queue_manager.normal_served = 0) ∧
    (basicAfterTwoTicks.controller.current_floor = 4 ∧
     basicAfterTwoTicks.controller.door_state = DoorState.opening ∧
     basicAfterTwoTicks.queue_manager.external_up_requests = [] ∧
     basicAfterTwoTicks.queue_manager.normal_served = 1) := by
  decide

/-- C6: in every controller tick the floor changes only when the doors were
closed immediately before: when the doors are opening, open or closing, the
tick reports no arrival and changes nothing but the door state and door
timer; and any tick that changes the floor started with closed doors. -/
theorem C6_floor_changes_need_closed_doors (c : ElevatorController) :
    (c.door_state ≠ DoorState.closed →
      ∃ ds dt, c.step = (false, { c with door_state := ds, door_timer := dt })) ∧
    ((c.step).2.current_floor ≠ c.current_floor → c.door_state = DoorState.closed) := by
  constructor
  · intro h
    obtain ⟨ds, dt, hd⟩ := update_doors_only_doors c
    refine ⟨ds, dt, ?_⟩
    rw [ElevatorController.step, if_pos h, hd]
  · intro h
    by_contra hne
    obtain ⟨ds, dt, hd⟩ := update_doors_only_doors c
    rw [ElevatorController.step, if_pos hne, hd] at h
    exact h rfl

/-- C6 witness: with the doors opening, a tick only advances the doors; a
tick that changed the floor (closed doors, target above) indeed started
from closed doors. -/
theorem C6_witness :
    (∃ ds dt,
      ({ ElevatorController.init 10 3 with
          door_state := DoorState.opening, door_timer := 1 } : ElevatorController).step =
        (false, { ElevatorController.init 10 3 with
          door_state := ds, door_timer := dt })) ∧
    ({ ElevatorController.init 10 3 with
        direction := Direction.up, target_floor := some 5 } : ElevatorController).door_state =
      DoorState.closed :=
  ⟨(C6_floor_changes_need_closed_doors _).1 (by decide),
   (C6_floor_changes_need_closed_doors
      { ElevatorController.init 10 3 with
          direction := Direction.up, target_floor := some 5 }).2 (by decide)⟩

/-- C7, counterexample: the round-trip claim fails for a store state that is
already paused (reachable by submitting internal(5) and pausing): a further
`pause_normal_requests` is a no-op, so the following `resume_normal_requests`
replaces the live pending sets by the paused snapshot instead of restoring
their pre-pause (empty) content. -/
theorem C7_counterexample :
    pausedStore.internal_requests = [] ∧
    ((pausedStore.pause_normal_requests).resume_normal_requests).internal_requests = [5] := by
  decide

/-- C7, amended: for every store state that is not currently paused, pausing
and then resuming with no intervening submissions restores the three pending
sets exactly; moreover a resume while not paused changes nothing and a
repeated pause while already paused changes nothing. -/
theorem C7_pause_resume_roundtrip (q : QueueManager) (h : q.is_paused = false) :
    ((q.pause_normal_requests).resume_normal_requests).internal_requests =
      q.internal_requests ∧
    ((q.pause_normal_requests).resume_normal_requests).external_up_requests =
      q.external_up_requests ∧
    ((q.pause_normal_requests).resume_normal_requests).external_down_requests =
      q.external_down_requests ∧
    q.resume_normal_requests = q ∧
    (q.pause_normal_requests).pause_normal_requests = q.pause_normal_requests := by
  simp [QueueManager.pause_normal_requests, QueueManager.resume_normal_requests, h]

/-- C7 witness: the amended round-trip facts at a fresh 10-floor store. -/
theorem C7_witness :
    (((QueueManager.init 10).pause_normal_requests).resume_normal_requests).internal_requests =
      (QueueManager.init 10).internal_requests ∧
    (((QueueManager.init 10).pause_normal_requests).resume_normal_requests).external_up_requests =
      (QueueManager.init 10).external_up_requests ∧
    (((QueueManager.init 10).pause_normal_requests).resume_normal_requests).external_down_requests =
      (QueueManager.init 10).external_down_requests ∧
    (QueueManager.init 10).resume_normal_requests = QueueManager.init 10 ∧
    ((QueueManager.init 10).pause_normal_requests).pause_normal_requests =
      (QueueManager.init 10).pause_normal_requests :=
  C7_pause_resume_roundtrip (QueueManager.init 10) rfl

lemma group_emergency_eq_filter (cf : Int) (d : Direction) (reqs : List (Int × Int)) :
    group_emergency cf d reqs =
      (reqs.filter (aheadA cf d), reqs.filter (fun r => ! aheadA cf d r), []) := by
  induction reqs with
  | nil => cases d <;> rfl
  | cons r rest ih =>
    simp only [group_emergency, ih, List.filter_cons]
    cases d <;>
      · rcases lt_trichotomy r.1 cf with h | h | h <;>
          simp_all [aheadA] <;> split_ifs <;> simp_all <;> omega

lemma sort_emergency_groupC (reqs : List (Int × Int)) (cf : Int) (d : Direction) :
    (sort_emergency_requests reqs cf d).2.2 = [] := by
  unfold sort_emergency_requests
  rw [group_emergency_eq_filter]
  cases d <;> rfl

lemma sort_emergency_groupA_perm (reqs : List (Int × Int)) (cf : Int) (d : Direction) :
    ((sort_emergency_requests reqs cf d).1).Perm (reqs.filter (aheadA cf d)) := by
  unfold sort_emergency_requests
  rw [group_emergency_eq_filter]
  cases d <;> exact List.perm_insertionSort _ _

lemma sort_emergency_groupB_perm (reqs : List (Int × Int)) (cf : Int) (d : Direction) :
    ((sort_emergency_requests reqs cf d).2.1).Perm
      (reqs.filter (fun r => ! aheadA cf d r)) := by
  unfold sort_emergency_requests
  rw [group_emergency_eq_filter]
  cases d <;> exact List.perm_insertionSort _ _

lemma sort_emergency_groupA_sorted (reqs : List (Int × Int)) (cf : Int) (d : Direction) :
    List.Sorted (orderA cf d) (sort_emergency_requests reqs cf d).1 := by
  unfold sort_emergency_requests
  rw [group_emergency_eq_filter]
  cases d with
  | up =>
    simp only [orderA]
    haveI : IsTotal (Int × Int) (fun x y : Int × Int => x.1 ≤ y.1) :=
      ⟨fun a b => le_total a.1 b.1⟩
    haveI : IsTrans (Int × Int) (fun x y : Int × Int => x.1 ≤ y.1) :=
      ⟨fun _ _ _ h1 h2 => le_trans h1 h2⟩
    exact List.sorted_insertionSort _ _
  | down =>
    simp only [orderA]
    haveI : IsTotal (Int × Int) (fun x y : Int × Int => y.1 ≤ x.1) :=
      ⟨fun a b => le_total b.1 a.1⟩
    haveI : IsTrans (Int × Int) (fun x y : Int × Int => y.1 ≤ x.1) :=
      ⟨fun _ _ _ h1 h2 => le_trans h2 h1⟩
    exact List.sorted_insertionSort _ _
  | idle =>
    simp only [orderA]
    haveI : IsTotal (Int × Int)
        (fun x y : Int × Int => (x.1 - cf).natAbs ≤ (y.1 - cf).natAbs) :=
      ⟨fun a b => le_total _ _⟩
    haveI : IsTrans (Int × Int)
        (fun x y : Int × Int => (x.1 - cf).natAbs ≤ (y.1 - cf).natAbs) :=
      ⟨fun _ _ _ h1 h2 => le_trans h1 h2⟩
    exact List.sorted_insertionSort _ _

/-- C10: the grouping pass of `sort_emergency_requests` classifies every
emergency request into Group A or Group B — together they are a permutation
of the whole list — and the returned Group C is always empty, for every
current floor and direction (including a pickup equal to the current floor
under Idle, which the destination test sends to A or B, never to C). -/
theorem C10_group_c_empty (reqs : List (Int × Int)) (cf : Int) (d : Direction) :
    (sort_emergency_requests reqs cf d).2.2 = [] ∧
    ((sort_emergency_requests reqs cf d).1 ++
      (sort_emergency_requests reqs cf d).2.1).Perm reqs := by
  refine ⟨sort_emergency_groupC reqs cf d, ?_⟩
  exact ((sort_emergency_groupA_perm reqs cf d).append
    (sort_emergency_groupB_perm reqs cf d)).trans (List.filter_append_perm _ _)

/-- C4: `get_next_emergency_target` returns no target exactly when the
emergency list is empty; otherwise it returns, for the first element `r` of
the first non-empty group in order A, B, C, the destination `r.2` as a
drop-off leg when the car is already at the pickup floor `r.1`, else the
pickup floor as a pickup leg; and Group A consists exactly of the requests
whose pickup floor lies strictly ahead in the current direction (ties at
the current floor classified by the destination), sorted ascending by
pickup floor when heading up, descending when heading down, nearest-first
when idle. -/
theorem C4_next_emergency_target (reqs : List (Int × Int)) (cf : Int) (d : Direction) :
    (get_next_emergency_target reqs cf d =
      match (sort_emergency_requests reqs cf d).1, (sort_emergency_requests reqs cf d).2.1,
            (sort_emergency_requests reqs cf d).2.2 with
      | r :: _, _, _ => if cf = r.1 then (some r.2, false) else (some r.1, true)
      | [], r :: _, _ => if cf = r.1 then (some r.2, false) else (some r.1, true)
      | [], [], r :: _ => if cf = r.1 then (some r.2, false) else (some r.1, true)
      | [], [], [] => (none, false)) ∧
    ((get_next_emergency_target reqs cf d).1 = none ↔ reqs = []) ∧
    ((sort_emergency_requests reqs cf d).1).Perm (reqs.filter (aheadA cf d)) ∧
    List.Sorted (orderA cf d) (sort_emergency_requests reqs cf d).1 := by
  have hmain : get_next_emergency_target reqs cf d =
      match (sort_emergency_requests reqs cf d).1, (sort_emergency_requests reqs cf d).2.1,
            (sort_emergency_requests reqs cf d).2.2 with
      | r :: _, _, _ => if cf = r.1 then (some r.2, false) else (some r.1, true)
      | [], r :: _, _ => if cf = r.1 then (some r.2, false) else (some r.1, true)
      | [], [], r :: _ => if cf = r.1 then (some r.2, false) else (some r.1, true)
      | [], [], [] => (none, false) := by
    by_cases h : reqs = []
    · subst h
      cases d <;> rfl
    · unfold get_next_emergency_target
      rw [if_neg h]
      rcases hs : sort_emergency_requests reqs cf d with ⟨ga, gb, gc⟩
      cases ga <;> cases gb <;> cases gc <;> rfl
  refine ⟨hmain, ?_, sort_emergency_groupA_perm reqs cf d,
    sort_emergency_groupA_sorted reqs cf d⟩
  constructor
  · intro hnone
    by_contra h
    have hperm := ((sort_emergency_groupA_perm reqs cf d).append
      (sort_emergency_groupB_perm reqs cf d)).trans (List.filter_append_perm _ _)
    rw [hmain] at hnone
    rcases hga : (sort_emergency_requests reqs cf d).1 with _ | ⟨r, ta⟩
    · rcases hgb : (sort_emergency_requests reqs cf d).2.1 with _ | ⟨r, tb⟩
      · rw [hga, hgb] at hperm
        exact h hperm.symm.eq_nil
      · rw [hga, hgb] at hnone
        simp at hnone
        split_ifs at hnone
    · rw [hga] at hnone
      simp at hnone
      split_ifs at hnone
  · intro h
    subst h
    rfl

lemma get_next_emergency_target_eq (reqs : List (Int × Int)) (cf : Int) (d : Direction)
    (hne : reqs ≠ []) :
    get_next_emergency_target reqs cf d =
      match first_group_head reqs cf d with
      | some r => if cf = r.1 then (some r.2, false) else (some r.1, true)
      | none => (none, false) := by
  unfold get_next_emergency_target first_group_head
  rw [if_neg hne]
  rcases hs : sort_emergency_requests reqs cf d with ⟨ga, gb, gc⟩
  cases ga <;> cases gb <;> cases gc <;> rfl

lemma first_group_head_mem (reqs : List (Int × Int)) (cf : Int) (d : Direction)
    (r : Int × Int) (h : first_group_head reqs cf d = some r) : r ∈ reqs := by
  have hpa := sort_emergency_groupA_perm reqs cf d
  have hpb := sort_emergency_groupB_perm reqs cf d
  have hpc := sort_emergency_groupC reqs cf d
  unfold first_group_head at h
  rcases hs : sort_emergency_requests reqs cf d with ⟨ga, gb, gc⟩
  rw [hs] at h hpa hpb hpc
  simp only at hpa hpb hpc
  cases ga with
  | cons r0 ta =>
      simp only [Option.some.injEq] at h
      subst h
      exact (List.mem_filter.mp (hpa.subset (List.mem_cons_self _ _))).1
  | nil =>
      cases gb with
      | cons r0 tb =>
          simp only [Option.some.injEq] at h
          subst h
          exact (List.mem_filter.mp (hpb.subset (List.mem_cons_self _ _))).1
      | nil =>
          subst hpc
          simp at h

lemma first_group_head_isSome (reqs : List (Int × Int)) (cf : Int) (d : Direction)
    (hne : reqs ≠ []) : first_group_head reqs cf d ≠ none := by
  have hpa := sort_emergency_groupA_perm reqs cf d
  have hpb := sort_emergency_groupB_perm reqs cf d
  have hcov := ((sort_emergency_groupA_perm reqs cf d).append
    (sort_emergency_groupB_perm reqs cf d)).trans (List.filter_append_perm _ _)
  unfold first_group_head
  rcases hs : sort_emergency_requests reqs cf d with ⟨ga, gb, gc⟩
  rw [hs] at hcov
  simp only at hcov
  cases ga with
  | cons r0 ta => simp
  | nil =>
      cases gb with
      | cons r0 tb => simp
      | nil => exact absurd hcov.symm.eq_nil hne

lemma record_pickup_eq (s : ElevatorSystem) :
    s.record_pickup =
      match first_group_head s.queue_manager.emergency_requests
          s.controller.current_floor s.controller.direction with
      | some r => { s with current_emergency_pickup := some r }
      | none => s := by
  unfold ElevatorSystem.record_pickup first_group_head
  rcases hs : sort_emergency_requests s.queue_manager.emergency_requests
      s.controller.current_floor s.controller.direction with ⟨ga, gb, gc⟩
  cases ga <;> cases gb <;> cases gc <;> rfl

lemma move_to_floor_self (c : ElevatorController) (t : Int) (h : t = c.current_floor) :
    c.move_to_floor t = { c with direction := Direction.idle, target_floor := none } := by
  unfold ElevatorController.move_to_floor
  rw [if_pos h]

lemma move_to_floor_oor (c : ElevatorController) (t : Int) (h1 : t ≠ c.current_floor)
    (h2 : ¬ (1 ≤ t ∧ t ≤ c.num_floors)) : c.move_to_floor t = c := by
  unfold ElevatorController.move_to_floor
  rw [if_neg h1, if_pos h2]

lemma move_to_floor_set (c : ElevatorController) (t : Int) (h1 : t ≠ c.current_floor)
    (h2 : 1 ≤ t ∧ t ≤ c.num_floors) :
    c.move_to_floor t =
      { c with
        target_floor := some t
        direction := if t > c.current_floor then Direction.up else Direction.down
        is_moving := true } := by
  unfold ElevatorController.move_to_floor
  rw [if_neg h1, if_neg (not_not_intro h2)]

lemma cstep_doors (c : ElevatorController) (h : c.door_state ≠ DoorState.closed) :
    c.step = (false, (c.update_doors).2) := by
  unfold ElevatorController.step
  rw [if_pos h]

lemma cstep_no_target (c : ElevatorController) (h1 : c.door_state = DoorState.closed)
    (h2 : c.target_floor = none) :
    c.step = (false, { c with is_moving := false, direction := Direction.idle }) := by
  unfold ElevatorController.step
  rw [if_neg (not_not_intro h1), h2]

lemma cstep_arrival (c : ElevatorController) (t : Int)
    (h1 : c.door_state = DoorState.closed) (h2 : c.target_floor = some t)
    (h3 : c.current_floor = t) :
    c.step = (true, { c with is_moving := false, target_floor := none }) := by
  unfold ElevatorController.step
  rw [if_neg (not_not_intro h1), h2]
  simp only [h3, if_pos rfl, if_true]

lemma cstep_move (c : ElevatorController) (t : Int)
    (h1 : c.door_state = DoorState.closed) (h2 : c.target_floor = some t)
    (h3 : ¬ c.current_floor = t) :
    c.step =
      (false,
        match c.direction with
        | Direction.up =>
            { c with
              current_floor := c.current_floor + 1
              total_floors_traveled := c.total_floors_traveled + 1 }
        | Direction.down =>
            { c with
              current_floor := c.current_floor - 1
              total_floors_traveled := c.total_floors_traveled + 1 }
        | Direction.idle => c) := by
  unfold ElevatorController.step
  rw [if_neg (not_not_intro h1), h2]
  simp only [h3, if_false]
  cases c.direction <;> rfl

lemma get_next_target_spec (s : ElevatorSystem)
    (hpk : s.current_emergency_pickup = none)
    (hmode : s.emergency_mode = true ↔ s.queue_manager.emergency_requests ≠ [])
    (hdest : ∀ r, s.current_emergency_destination = some r →
      s.controller.current_floor ≠ r.2) :
    (∃ r, s.current_emergency_destination = some r ∧
      s.get_next_target = (some r.2, s)) ∨
    (s.current_emergency_destination = none ∧ s.emergency_mode = true ∧
      ∃ r, first_group_head s.queue_manager.emergency_requests
          s.controller.current_floor s.controller.direction = some r ∧
        r ∈ s.queue_manager.emergency_requests ∧
        s.controller.current_floor ≠ r.1 ∧
        s.get_next_target = (some r.1, { s with current_emergency_pickup := some r })) ∨
    (s.current_emergency_destination = none ∧ s.emergency_mode = true ∧
      ∃ r, first_group_head s.queue_manager.emergency_requests
          s.controller.current_floor s.controller.direction = some r ∧
        r ∈ s.queue_manager.emergency_requests ∧
        s.controller.current_floor = r.1 ∧
        s.get_next_target = (some r.2, s)) ∨
    (s.current_emergency_destination = none ∧ s.emergency_mode = false ∧
      s.get_next_target = (get_next_normal_target s.queue_manager
        s.controller.current_floor s.controller.direction, s)) := by
  rcases hd : s.current_emergency_destination with _ | ⟨f, t⟩
  · have hlegs : s.get_next_target = s.next_target_after_legs := by
      unfold ElevatorSystem.get_next_target ElevatorSystem.next_target_after_dest
      rw [hd, hpk]
    by_cases hm : s.emergency_mode = true
    · have hne : s.queue_manager.emergency_requests ≠ [] := hmode.mp hm
      rcases hh : first_group_head s.queue_manager.emergency_requests
          s.controller.current_floor s.controller.direction with _ | r
      · exact absurd hh (first_group_head_isSome _ _ _ hne)
      · have hge := get_next_emergency_target_eq s.queue_manager.emergency_requests
          s.controller.current_floor s.controller.direction hne
        rw [hh] at hge
        simp only at hge
        have hmem := first_group_head_mem _ _ _ _ hh
        have hrp := record_pickup_eq s
        rw [hh] at hrp
        simp only at hrp
        by_cases hcf : s.controller.current_floor = r.1
        · have hres : s.get_next_target = (some r.2, s) := by
            rw [hlegs]
            unfold ElevatorSystem.next_target_after_legs
            rw [if_pos ⟨hm, hne⟩, hge, if_pos hcf]
            simp
          exact Or.inr (Or.inr (Or.inl ⟨by simp [hd], hm, r, by simp [hh], hmem, hcf, hres⟩))
        · have hres : s.get_next_target =
              (some r.1, { s with current_emergency_pickup := some r }) := by
            rw [hlegs]
            unfold ElevatorSystem.next_target_after_legs
            rw [if_pos ⟨hm, hne⟩, hge, if_neg hcf]
            simp [hrp]
          rw [hd] at hres
          exact Or.inr (Or.inl ⟨by simp [hd], hm, r, by simp [hh], hmem, hcf, hres⟩)
    · have hm' : s.emergency_mode = false := by
        cases hb : s.emergency_mode
        · rfl
        · exact absurd hb hm
      have hres : s.get_next_target = (get_next_normal_target s.queue_manager
          s.controller.current_floor s.controller.direction, s) := by
        rw [hlegs]
        unfold ElevatorSystem.next_target_after_legs
        rw [if_neg (fun hc => hm hc.1), if_pos hm']
      exact Or.inr (Or.inr (Or.inr ⟨by simp [hd], hm', hres⟩))
  · have hres : s.get_next_target = (some t, s) := by
      unfold ElevatorSystem.get_next_target
      rw [hd]
      exact if_pos (hdest (f, t) hd)
    exact Or.inl ⟨(f, t), by simp [hd], hres⟩

lemma inv_of_mid_controller (s : ElevatorSystem) (h : MidInv s) (c : ElevatorController)
    (hn : c.num_floors = s.controller.num_floors)
    (hf : c.current_floor = s.controller.current_floor)
    (hd0 : s.current_emergency_destination = none)
    (htf : ∀ t, c.target_floor = some t →
      1 ≤ t ∧ t ≤ s.num_floors ∧
        ((c.direction = Direction.up ∧ c.current_floor ≤ t) ∨
         (c.direction = Direction.down ∧ t ≤ c.current_floor))) :
    Inv { s with controller := c } := by
  refine
    { wc := hn.trans h.wc, wq := h.wq, lo := ?_, hi := ?_, target := htf,
      mode := h.mode, paused := h.paused, pickupInv := ?_, destInv := ?_,
      notBoth := Or.inl h.pickupNone, nodup := h.nodup, rint := h.rint,
      rup := h.rup, rdown := h.rdown, rpint := h.rpint, rpup := h.rpup,
      rpdown := h.rpdown, remerg := h.remerg }
  · show 1 ≤ c.current_floor
    rw [hf]; exact h.lo
  · show c.current_floor ≤ s.num_floors
    rw [hf]; exact h.hi
  · intro r hr
    have hr' : s.current_emergency_pickup = some r := hr
    rw [h.pickupNone] at hr'
    cases hr'
  · intro r hr
    have hr' : s.current_emergency_destination = some r := hr
    rw [hd0] at hr'
    cases hr'

lemma inv_select_some (s : ElevatorSystem) (h : MidInv s) (t : Int) (s' : ElevatorSystem)
    (hg : s.get_next_target = (some t, s')) :
    Inv { s' with controller := s'.controller.move_to_floor t } := by
  rcases get_next_target_spec s h.pickupNone h.mode (fun r hr => (h.destMid r hr).2) with
    ⟨r, hdr, hres⟩ | ⟨hdn, hm, r, hh, hmem, hcf, hres⟩ |
    ⟨hdn, hm, r, hh, hmem, hcf, hres⟩ | ⟨hdn, hm', hres⟩ <;>
    rw [hg] at hres
  · -- in-progress destination: the target is its destination floor
    obtain ⟨hmem, hne2⟩ := h.destMid r hdr
    have hrng := h.remerg r hmem
    have ht : some t = some r.2 := congrArg Prod.fst hres
    have hs : s' = s := congrArg Prod.snd hres
    injection ht with ht
    rw [ht, hs]
    rw [move_to_floor_set s.controller r.2 (Ne.symm hne2)
      ⟨hrng.2.2.1, by rw [h.wc]; exact hrng.2.2.2⟩]
    refine
      { wc := h.wc, wq := h.wq, lo := h.lo, hi := h.hi, target := ?_,
        mode := h.mode, paused := h.paused, pickupInv := ?_, destInv := ?_,
        notBoth := Or.inl h.pickupNone, nodup := h.nodup, rint := h.rint,
        rup := h.rup, rdown := h.rdown, rpint := h.rpint, rpup := h.rpup,
        rpdown := h.rpdown, remerg := h.remerg }
    · intro t' ht'
      have ht2 : some r.2 = some t' := ht'
      injection ht2 with ht2
      subst ht2
      refine ⟨hrng.2.2.1, hrng.2.2.2, ?_⟩
      by_cases hgt : r.2 > s.controller.current_floor
      · refine Or.inl ⟨?_, le_of_lt hgt⟩
        show (if r.2 > s.controller.current_floor then Direction.up else Direction.down) =
          Direction.up
        rw [if_pos hgt]
      · refine Or.inr ⟨?_, le_of_lt (lt_of_le_of_ne (not_lt.mp hgt) (Ne.symm hne2))⟩
        show (if r.2 > s.controller.current_floor then Direction.up else Direction.down) =
          Direction.down
        rw [if_neg hgt]
    · intro r' hr'
      have hr2 : s.current_emergency_pickup = some r' := hr'
      rw [h.pickupNone] at hr2
      cases hr2
    · intro r' hr'
      have hr2 : s.current_emergency_destination = some r' := hr'
      rw [hdr] at hr2
      injection hr2 with hr2
      subst hr2
      exact ⟨hmem, rfl⟩
  · -- emergency consultation committed a new pickup leg
    have hrng := h.remerg r hmem
    have ht : some t = some r.1 := congrArg Prod.fst hres
    have hs : s' = { s with current_emergency_pickup := some r } :=
      congrArg Prod.snd hres
    injection ht with ht
    rw [ht, hs]
    show Inv { s with
      current_emergency_pickup := some r
      controller := s.controller.move_to_floor r.1 }
    rw [move_to_floor_set s.controller r.1 (Ne.symm hcf)
      ⟨hrng.1, by rw [h.wc]; exact hrng.2.1⟩]
    refine
      { wc := h.wc, wq := h.wq, lo := h.lo, hi := h.hi, target := ?_,
        mode := h.mode, paused := h.paused, pickupInv := ?_, destInv := ?_,
        notBoth := Or.inr hdn, nodup := h.nodup, rint := h.rint,
        rup := h.rup, rdown := h.rdown, rpint := h.rpint, rpup := h.rpup,
        rpdown := h.rpdown, remerg := h.remerg }
    · intro t' ht'
      have ht2 : some r.1 = some t' := ht'
      injection ht2 with ht2
      subst ht2
      refine ⟨hrng.1, hrng.2.1, ?_⟩
      by_cases hgt : r.1 > s.controller.current_floor
      · refine Or.inl ⟨?_, le_of_lt hgt⟩
        show (if r.1 > s.controller.current_floor then Direction.up else Direction.down) =
          Direction.up
        rw [if_pos hgt]
      · refine Or.inr ⟨?_, le_of_lt (lt_of_le_of_ne (not_lt.mp hgt) (Ne.symm hcf))⟩
        show (if r.1 > s.controller.current_floor then Direction.up else Direction.down) =
          Direction.down
        rw [if_neg hgt]
    · intro r' hr'
      have hr2 : some r = some r' := hr'
      injection hr2 with hr2
      subst hr2
      exact ⟨hmem, rfl⟩
    · intro r' hr'
      have hr2 : s.current_emergency_destination = some r' := hr'
      rw [hdn] at hr2
      cases hr2
  · -- drop-off leg selected directly (car already at the pickup floor)
    have hrng := h.remerg r hmem
    have ht : some t = some r.2 := congrArg Prod.fst hres
    have hs : s' = s := congrArg Prod.snd hres
    injection ht with ht
    rw [ht, hs]
    by_cases heq : r.2 = s.controller.current_floor
    · rw [move_to_floor_self s.controller r.2 heq]
      refine inv_of_mid_controller s h _ rfl rfl hdn ?_
      intro t' ht'
      have ht2 : (none : Option Int) = some t' := ht'
      cases ht2
    · rw [move_to_floor_set s.controller r.2 heq
        ⟨hrng.2.2.1, by rw [h.wc]; exact hrng.2.2.2⟩]
      refine inv_of_mid_controller s h _ rfl rfl hdn ?_
      intro t' ht'
      have ht2 : some r.2 = some t' := ht'
      injection ht2 with ht2
      subst ht2
      refine ⟨hrng.2.2.1, hrng.2.2.2, ?_⟩
      by_cases hgt : r.2 > s.controller.current_floor
      · refine Or.inl ⟨?_, le_of_lt hgt⟩
        show (if r.2 > s.controller.current_floor then Direction.up else Direction.down) =
          Direction.up
        rw [if_pos hgt]
      · refine Or.inr ⟨?_, le_of_lt (lt_of_le_of_ne (not_lt.mp hgt) heq)⟩
        show (if r.2 > s.controller.current_floor then Direction.up else Direction.down) =
          Direction.down
        rw [if_neg hgt]
  · -- normal-mode target
    have hs : s' = s := congrArg Prod.snd hres
    rw [hs]
    by_cases heq : t = s.controller.current_floor
    · rw [move_to_floor_self s.controller t heq]
      refine inv_of_mid_controller s h _ rfl rfl hdn ?_
      intro t' ht'
      have ht2 : (none : Option Int) = some t' := ht'
      cases ht2
    · by_cases hrng : 1 ≤ t ∧ t ≤ s.controller.num_floors
      · rw [move_to_floor_set s.controller t heq hrng]
        refine inv_of_mid_controller s h _ rfl rfl hdn ?_
        intro t' ht'
        have ht2 : some t = some t' := ht'
        injection ht2 with ht2
        subst ht2
        refine ⟨hrng.1, by rw [← h.wc]; exact hrng.2, ?_⟩
        by_cases hgt : t > s.controller.current_floor
        · refine Or.inl ⟨?_, le_of_lt hgt⟩
          show (if t > s.controller.current_floor then Direction.up else Direction.down) =
            Direction.up
          rw [if_pos hgt]
        · refine Or.inr ⟨?_, le_of_lt (lt_of_le_of_ne (not_lt.mp hgt) heq)⟩
          show (if t > s.controller.current_floor then Direction.up else Direction.down) =
            Direction.down
          rw [if_neg hgt]
      · rw [move_to_floor_oor s.controller t heq hrng]
        refine inv_of_mid_controller s h _ rfl rfl hdn ?_
        intro t' ht'
        have ht2 : (none : Option Int) = some t' := h.tnone ▸ ht'
        cases ht2

lemma inv_select_none_keep (s : ElevatorSystem) (h : MidInv s) (s' : ElevatorSystem)
    (hg : s.get_next_target = (none, s')) : Inv s' := by
  rcases get_next_target_spec s h.pickupNone h.mode (fun r hr => (h.destMid r hr).2) with
    ⟨r, hdr, hres⟩ | ⟨hdn, hm, r, hh, hmem, hcf, hres⟩ |
    ⟨hdn, hm, r, hh, hmem, hcf, hres⟩ | ⟨hdn, hm', hres⟩ <;>
    rw [hg] at hres
  · exact absurd (congrArg Prod.fst hres) (by simp)
  · exact absurd (congrArg Prod.fst hres) (by simp)
  · exact absurd (congrArg Prod.fst hres) (by simp)
  · have hs : s' = s := congrArg Prod.snd hres
    rw [hs]
    have hfull : Inv { s with controller := s.controller } := by
      refine inv_of_mid_controller s h _ rfl rfl hdn ?_
      intro t' ht'
      have ht2 : (none : Option Int) = some t' := h.tnone ▸ ht'
      cases ht2
    exact hfull

lemma inv_select_none_idle (s : ElevatorSystem) (h : MidInv s) (s' : ElevatorSystem)
    (hg : s.get_next_target = (none, s')) :
    Inv { s' with controller := { s'.controller with direction := Direction.idle } } := by
  rcases get_next_target_spec s h.pickupNone h.mode (fun r hr => (h.destMid r hr).2) with
    ⟨r, hdr, hres⟩ | ⟨hdn, hm, r, hh, hmem, hcf, hres⟩ |
    ⟨hdn, hm, r, hh, hmem, hcf, hres⟩ | ⟨hdn, hm', hres⟩ <;>
    rw [hg] at hres
  · exact absurd (congrArg Prod.fst hres) (by simp)
  · exact absurd (congrArg Prod.fst hres) (by simp)
  · exact absurd (congrArg Prod.fst hres) (by simp)
  · have hs : s' = s := congrArg Prod.snd hres
    rw [hs]
    refine inv_of_mid_controller s h _ rfl rfl hdn ?_
    intro t' ht'
    have ht2 : (none : Option Int) = some t' := h.tnone ▸ ht'
    cases ht2

@[simp] lemma open_doors_num (c : ElevatorController) :
    c.open_doors.num_floors = c.num_floors := by
  simp only [ElevatorController.open_doors]; split_ifs <;> rfl

@[simp] lemma open_doors_floor (c : ElevatorController) :
    c.open_doors.current_floor = c.current_floor := by
  simp only [ElevatorController.open_doors]; split_ifs <;> rfl

@[simp] lemma open_doors_direction (c : ElevatorController) :
    c.open_doors.direction = c.direction := by
  simp only [ElevatorController.open_doors]; split_ifs <;> rfl

@[simp] lemma open_doors_target (c : ElevatorController) :
    c.open_doors.target_floor = c.target_floor := by
  simp only [ElevatorController.open_doors]; split_ifs <;> rfl

@[simp] lemma add_passenger_num (c : ElevatorController) :
    c.add_passenger.num_floors = c.num_floors := by
  simp only [ElevatorController.add_passenger]; split_ifs <;> rfl

@[simp] lemma add_passenger_floor (c : ElevatorController) :
    c.add_passenger.current_floor = c.current_floor := by
  simp only [ElevatorController.add_passenger]; split_ifs <;> rfl

@[simp] lemma add_passenger_direction (c : ElevatorController) :
    c.add_passenger.direction = c.direction := by
  simp only [ElevatorController.add_passenger]; split_ifs <;> rfl

@[simp] lemma add_passenger_target (c : ElevatorController) :
    c.add_passenger.target_floor = c.target_floor := by
  simp only [ElevatorController.add_passenger]; split_ifs <;> rfl

@[simp] lemma remove_passenger_num (c : ElevatorController) :
    c.remove_passenger.num_floors = c.num_floors := by
  simp only [ElevatorController.remove_passenger]; split_ifs <;> rfl

@[simp] lemma remove_passenger_floor (c : ElevatorController) :
    c.remove_passenger.current_floor = c.current_floor := by
  simp only [ElevatorController.remove_passenger]; split_ifs <;> rfl

@[simp] lemma remove_passenger_direction (c : ElevatorController) :
    c.remove_passenger.direction = c.direction := by
  simp only [ElevatorController.remove_passenger]; split_ifs <;> rfl

@[simp] lemma remove_passenger_target (c : ElevatorController) :
    c.remove_passenger.target_floor = c.target_floor := by
  simp only [ElevatorController.remove_passenger]; split_ifs <;> rfl

@[simp] lemma remove_internal_num (q : QueueManager) (x : Int) :
    (q.remove_internal_request x).num_floors = q.num_floors := by
  simp only [QueueManager.remove_internal_request]; split_ifs <;> rfl

@[simp] lemma remove_internal_is_paused (q : QueueManager) (x : Int) :
    (q.remove_internal_request x).is_paused = q.is_paused := by
  simp only [QueueManager.remove_internal_request]; split_ifs <;> rfl

@[simp] lemma remove_internal_emerg (q : QueueManager) (x : Int) :
    (q.remove_internal_request x).emergency_requests = q.emergency_requests := by
  simp only [QueueManager.remove_internal_request]; split_ifs <;> rfl

@[simp] lemma remove_internal_up (q : QueueManager) (x : Int) :
    (q.remove_internal_request x).external_up_requests = q.external_up_requests := by
  simp only [QueueManager.remove_internal_request]; split_ifs <;> rfl

@[simp] lemma remove_internal_down (q : QueueManager) (x : Int) :
    (q.remove_internal_request x).external_down_requests = q.external_down_requests := by
  simp only [QueueManager.remove_internal_request]; split_ifs <;> rfl

@[simp] lemma remove_internal_pint (q : QueueManager) (x : Int) :
    (q.remove_internal_request x).paused_internal = q.paused_internal := by
  simp only [QueueManager.remove_internal_request]; split_ifs <;> rfl

@[simp] lemma remove_internal_pup (q : QueueManager) (x : Int) :
    (q.remove_internal_request x).paused_external_up = q.paused_external_up := by
  simp only [QueueManager.remove_internal_request]; split_ifs <;> rfl

@[simp] lemma remove_internal_pdown (q : QueueManager) (x : Int) :
    (q.remove_internal_request x).paused_external_down = q.paused_external_down := by
  simp only [QueueManager.remove_internal_request]; split_ifs <;> rfl

@[simp] lemma remove_internal_int (q : QueueManager) (x : Int) :
    (q.remove_internal_request x).internal_requests =
      q.internal_requests.filter (fun f => f ≠ x) := by
  simp only [QueueManager.remove_internal_request]; split_ifs <;> rfl

@[simp] lemma remove_external_num (q : QueueManager) (x : Int) (d : Direction) :
    (q.remove_external_request x d).num_floors = q.num_floors := by
  simp only [QueueManager.remove_external_request]; split_ifs <;> rfl

@[simp] lemma remove_external_is_paused (q : QueueManager) (x : Int) (d : Direction) :
    (q.remove_external_request x d).is_paused = q.is_paused := by
  simp only [QueueManager.remove_external_request]; split_ifs <;> rfl

@[simp] lemma remove_external_emerg (q : QueueManager) (x : Int) (d : Direction) :
    (q.remove_external_request x d).emergency_requests = q.emergency_requests := by
  simp only [QueueManager.remove_external_request]; split_ifs <;> rfl

@[simp] lemma remove_external_int (q : QueueManager) (x : Int) (d : Direction) :
    (q.remove_external_request x d).internal_requests = q.internal_requests := by
  simp only [QueueManager.remove_external_request]; split_ifs <;> rfl

@[simp] lemma remove_external_pint (q : QueueManager) (x : Int) (d : Direction) :
    (q.remove_external_request x d).paused_internal = q.paused_internal := by
  simp only [QueueManager.remove_external_request]; split_ifs <;> rfl

@[simp] lemma remove_external_pup (q : QueueManager) (x : Int) (d : Direction) :
    (q.remove_external_request x d).paused_external_up = q.paused_external_up := by
  simp only [QueueManager.remove_external_request]; split_ifs <;> rfl

@[simp] lemma remove_external_pdown (q : QueueManager) (x : Int) (d : Direction) :
    (q.remove_external_request x d).paused_external_down = q.paused_external_down := by
  simp only [QueueManager.remove_external_request]; split_ifs <;> rfl

lemma remove_external_up_sub (q : QueueManager) (x : Int) (d : Direction) :
    ∀ f ∈ (q.remove_external_request x d).external_up_requests,
      f ∈ q.external_up_requests := by
  simp only [QueueManager.remove_external_request]
  split_ifs <;> intro f hf <;> first
    | exact hf
    | exact List.mem_of_mem_filter hf

lemma remove_external_down_sub (q : QueueManager) (x : Int) (d : Direction) :
    ∀ f ∈ (q.remove_external_request x d).external_down_requests,
      f ∈ q.external_down_requests := by
  simp only [QueueManager.remove_external_request]
  split_ifs <;> intro f hf <;> first
    | exact hf
    | exact List.mem_of_mem_filter hf

@[simp] lemma remove_emergency_num (q : QueueManager) (f t : Int) :
    (q.remove_emergency_request f t).num_floors = q.num_floors := by
  simp only [QueueManager.remove_emergency_request]; split_ifs <;> rfl

@[simp] lemma remove_emergency_is_paused (q : QueueManager) (f t : Int) :
    (q.remove_emergency_request f t).is_paused = q.is_paused := by
  simp only [QueueManager.remove_emergency_request]; split_ifs <;> rfl

@[simp] lemma remove_emergency_int (q : QueueManager) (f t : Int) :
    (q.remove_emergency_request f t).internal_requests = q.internal_requests := by
  simp only [QueueManager.remove_emergency_request]; split_ifs <;> rfl

@[simp] lemma remove_emergency_up (q : QueueManager) (f t : Int) :
    (q.remove_emergency_request f t).external_up_requests = q.external_up_requests := by
  simp only [QueueManager.remove_emergency_request]; split_ifs <;> rfl

@[simp] lemma remove_emergency_down (q : QueueManager) (f t : Int) :
    (q.remove_emergency_request f t).external_down_requests = q.external_down_requests := by
  simp only [QueueManager.remove_emergency_request]; split_ifs <;> rfl

@[simp] lemma remove_emergency_pint (q : QueueManager) (f t : Int) :
    (q.remove_emergency_request f t).paused_internal = q.paused_internal := by
  simp only [QueueManager.remove_emergency_request]; split_ifs <;> rfl

@[simp] lemma remove_emergency_pup (q : QueueManager) (f t : Int) :
    (q.remove_emergency_request f t).paused_external_up = q.paused_external_up := by
  simp only [QueueManager.remove_emergency_request]; split_ifs <;> rfl

@[simp] lemma remove_emergency_pdown (q : QueueManager) (f t : Int) :
    (q.remove_emergency_request f t).paused_external_down = q.paused_external_down := by
  simp only [QueueManager.remove_emergency_request]; split_ifs <;> rfl

@[simp] lemma remove_emergency_list (q : QueueManager) (f t : Int) :
    (q.remove_emergency_request f t).emergency_requests =
      (if (f, t) ∈ q.emergency_requests then q.emergency_requests.erase (f, t)
       else q.emergency_requests) := by
  simp only [QueueManager.remove_emergency_request]; split_ifs <;> simp_all

lemma mid_replace (s : ElevatorSystem) (h : MidInv s) (c : ElevatorController)
    (q : QueueManager)
    (hc1 : c.num_floors = s.controller.num_floors)
    (hc2 : c.current_floor = s.controller.current_floor)
    (hc3 : c.target_floor = s.controller.target_floor)
    (hq1 : q.num_floors = s.queue_manager.num_floors)
    (hq2 : q.emergency_requests = s.queue_manager.emergency_requests)
    (hq3 : q.is_paused = s.queue_manager.is_paused)
    (hq4 : ∀ f ∈ q.internal_requests, f ∈ s.queue_manager.internal_requests)
    (hq5 : ∀ f ∈ q.external_up_requests, f ∈ s.queue_manager.external_up_requests)
    (hq6 : ∀ f ∈ q.external_down_requests, f ∈ s.queue_manager.external_down_requests)
    (hq7 : ∀ f ∈ q.paused_internal, f ∈ s.queue_manager.paused_internal)
    (hq8 : ∀ f ∈ q.paused_external_up, f ∈ s.queue_manager.paused_external_up)
    (hq9 : ∀ f ∈ q.paused_external_down, f ∈ s.queue_manager.paused_external_down) :
    MidInv { s with controller := c, queue_manager := q } := by
  refine
    { wc := hc1.trans h.wc, wq := hq1.trans h.wq, lo := ?_, hi := ?_, tnone := ?_,
      mode := ?_, paused := ?_, pickupNone := h.pickupNone, destMid := ?_,
      nodup := ?_, rint := ?_, rup := ?_, rdown := ?_, rpint := ?_, rpup := ?_,
      rpdown := ?_, remerg := ?_ }
  · show 1 ≤ c.current_floor
    rw [hc2]; exact h.lo
  · show c.current_floor ≤ s.num_floors
    rw [hc2]; exact h.hi
  · show c.target_floor = none
    rw [hc3]; exact h.tnone
  · show s.emergency_mode = true ↔ q.emergency_requests ≠ []
    rw [hq2]; exact h.mode
  · show q.is_paused = s.emergency_mode
    rw [hq3]; exact h.paused
  · intro r hr
    have hr2 : s.current_emergency_destination = some r := hr
    obtain ⟨hmem, hne⟩ := h.destMid r hr2
    refine ⟨?_, ?_⟩
    · show r ∈ q.emergency_requests
      rw [hq2]; exact hmem
    · show c.current_floor ≠ r.2
      rw [hc2]; exact hne
  · show q.emergency_requests.Nodup
    rw [hq2]; exact h.nodup
  · intro f hf
    exact h.rint f (hq4 f hf)
  · intro f hf
    exact h.rup f (hq5 f hf)
  · intro f hf
    exact h.rdown f (hq6 f hf)
  · intro f hf
    exact h.rpint f (hq7 f hf)
  · intro f hf
    exact h.rpup f (hq8 f hf)
  · intro f hf
    exact h.rpdown f (hq9 f hf)
  · intro r hr
    have hr2 : r ∈ s.queue_manager.emergency_requests := hq2 ▸ hr
    exact h.remerg r hr2

@[simp] lemma remove_external_up_up (q : QueueManager) (x : Int) :
    (q.remove_external_request x Direction.up).external_up_requests =
      q.external_up_requests.filter (fun f => f ≠ x) := by
  simp only [QueueManager.remove_external_request, if_pos rfl]
  split_ifs <;> rfl

@[simp] lemma remove_external_up_down (q : QueueManager) (x : Int) :
    (q.remove_external_request x Direction.up).external_down_requests =
      q.external_down_requests := by
  simp only [QueueManager.remove_external_request, if_pos rfl]
  split_ifs <;> rfl

@[simp] lemma remove_external_down_up (q : QueueManager) (x : Int) :
    (q.remove_external_request x Direction.down).external_up_requests =
      q.external_up_requests := by
  simp only [QueueManager.remove_external_request]
  split_ifs <;> simp_all

@[simp] lemma remove_external_down_down (q : QueueManager) (x : Int) :
    (q.remove_external_request x Direction.down).external_down_requests =
      q.external_down_requests.filter (fun f => f ≠ x) := by
  simp only [QueueManager.remove_external_request]
  split_ifs <;> simp_all

lemma mid_normal_arrival (s : ElevatorSystem) (h : MidInv s) (nf : Int) :
    MidInv (s.step_normal_arrival nf) := by
  simp only [ElevatorSystem.step_normal_arrival]
  split_ifs <;>
    first
      | exact h
      | (refine mid_replace s h _ _ ?_ ?_ ?_ ?_ ?_ ?_ ?_ ?_ ?_ ?_ ?_ ?_ <;>
          first
            | (simp; done)
            | (intro f hf
               simp only [remove_internal_int, remove_internal_up, remove_internal_down,
                 remove_internal_pint, remove_internal_pup, remove_internal_pdown,
                 remove_external_int, remove_external_pint, remove_external_pup,
                 remove_external_pdown, remove_external_up_up, remove_external_up_down,
                 remove_external_down_up, remove_external_down_down] at hf
               first
                 | exact hf
                 | exact List.mem_of_mem_filter hf))

@[simp] lemma resume_num (q : QueueManager) :
    (q.resume_normal_requests).num_floors = q.num_floors := by
  simp only [QueueManager.resume_normal_requests]; split_ifs <;> rfl

@[simp] lemma resume_emerg (q : QueueManager) :
    (q.resume_normal_requests).emergency_requests = q.emergency_requests := by
  simp only [QueueManager.resume_normal_requests]; split_ifs <;> rfl

@[simp] lemma resume_is_paused (q : QueueManager) :
    (q.resume_normal_requests).is_paused = false := by
  simp only [QueueManager.resume_normal_requests]
  split_ifs with hq
  · rfl
  · simpa using hq

lemma remove_emergency_key_gone (q : QueueManager) (f t : Int) :
    RKey.emergency f t ∉ (q.remove_emergency_request f t).request_times := by
  simp only [QueueManager.remove_emergency_request]
  split_ifs with h1 h2 h3 <;> simp_all [List.mem_filter]

lemma remove_emergency_noop (q : QueueManager) (f t : Int)
    (h1 : (f, t) ∉ q.emergency_requests)
    (h2 : RKey.emergency f t ∉ q.request_times) :
    q.remove_emergency_request f t = q := by
  simp only [QueueManager.remove_emergency_request]
  rw [if_neg h1, if_neg h2]

lemma mid_completion (u : ElevatorSystem) (f t : Int)
    (wc : u.controller.num_floors = u.num_floors)
    (wq : u.queue_manager.num_floors = u.num_floors)
    (lo : 1 ≤ u.controller.current_floor)
    (hi : u.controller.current_floor ≤ u.num_floors)
    (tnone : u.controller.target_floor = none)
    (hm : u.emergency_mode = true)
    (hp : u.queue_manager.is_paused = true)
    (hpk : u.current_emergency_pickup = none)
    (hmem : (f, t) ∈ u.queue_manager.emergency_requests)
    (nodup : u.queue_manager.emergency_requests.Nodup)
    (rint : ∀ x ∈ u.queue_manager.internal_requests, 1 ≤ x ∧ x ≤ u.num_floors)
    (rup : ∀ x ∈ u.queue_manager.external_up_requests, 1 ≤ x ∧ x ≤ u.num_floors)
    (rdown : ∀ x ∈ u.queue_manager.external_down_requests, 1 ≤ x ∧ x ≤ u.num_floors)
    (rpint : ∀ x ∈ u.queue_manager.paused_internal, 1 ≤ x ∧ x ≤ u.num_floors)
    (rpup : ∀ x ∈ u.queue_manager.paused_external_up, 1 ≤ x ∧ x ≤ u.num_floors)
    (rpdown : ∀ x ∈ u.queue_manager.paused_external_down, 1 ≤ x ∧ x ≤ u.num_floors)
    (remerg : ∀ r ∈ u.queue_manager.emergency_requests,
      1 ≤ r.1 ∧ r.1 ≤ u.num_floors ∧ 1 ≤ r.2 ∧ r.2 ≤ u.num_floors) :
    MidInv (complete_arrival u f t) := by
  unfold complete_arrival
  have hq1list : (u.queue_manager.remove_emergency_request f t).emergency_requests =
      u.queue_manager.emergency_requests.erase (f, t) := by
    rw [remove_emergency_list, if_pos hmem]
  have hnm : (f, t) ∉ (u.queue_manager.remove_emergency_request f t).emergency_requests := by
    rw [hq1list]
    intro hx
    exact absurd rfl ((nodup.mem_erase_iff.mp hx).1)
  have hkey := remove_emergency_key_gone u.queue_manager f t
  have hnoop : (u.queue_manager.remove_emergency_request f t).remove_emergency_request f t =
      u.queue_manager.remove_emergency_request f t :=
    remove_emergency_noop _ f t hnm hkey
  simp only [ElevatorSystem.complete_emergency_request, QueueManager.has_emergency_requests]
  simp only [hnoop]
  by_cases hE : (u.queue_manager.remove_emergency_request f t).emergency_requests = []
  · -- the last emergency request was completed: exit emergency mode and resume
    simp only [ElevatorSystem.end_emergency_mode]
    rw [if_pos (by simpa using hE), if_pos ⟨hm, hE⟩]
    refine
      { wc := ?_, wq := ?_, lo := ?_, hi := ?_, tnone := ?_, mode := ?_,
        paused := ?_, pickupNone := hpk, destMid := ?_, nodup := ?_, rint := ?_,
        rup := ?_, rdown := ?_, rpint := ?_, rpup := ?_, rpdown := ?_, remerg := ?_ }
    · simpa using wc
    · simpa using wq
    · simpa using lo
    · simpa using hi
    · simpa using tnone
    · simp only [resume_emerg]
      simp [hE]
      rw [if_pos hmem]
      exact hq1list ▸ hE
    · simp
    · intro r hr
      cases hr
    · simp only [resume_emerg, remove_emergency_list]
      rw [if_pos hmem]
      exact nodup.erase _
    · -- live internal after resume = previously paused internal
      intro x hx
      simp only [QueueManager.resume_normal_requests] at hx
      rw [if_pos (by simpa using hp)] at hx
      exact rpint x (by simpa using hx)
    · intro x hx
      simp only [QueueManager.resume_normal_requests] at hx
      rw [if_pos (by simpa using hp)] at hx
      exact rpup x (by simpa using hx)
    · intro x hx
      simp only [QueueManager.resume_normal_requests] at hx
      rw [if_pos (by simpa using hp)] at hx
      exact rpdown x (by simpa using hx)
    · intro x hx
      simp only [QueueManager.resume_normal_requests] at hx
      rw [if_pos (by simpa using hp)] at hx
      simp at hx
    · intro x hx
      simp only [QueueManager.resume_normal_requests] at hx
      rw [if_pos (by simpa using hp)] at hx
      simp at hx
    · intro x hx
      simp only [QueueManager.resume_normal_requests] at hx
      rw [if_pos (by simpa using hp)] at hx
      simp at hx
    · intro r hr
      have hr2 : r ∈ (u.queue_manager.remove_emergency_request f t).emergency_requests := by
        simpa using hr
      rw [hE] at hr2
      cases hr2
  · -- other emergency requests remain: stay in emergency mode
    simp only [ElevatorSystem.end_emergency_mode]
    rw [if_neg (by simpa using hE)]
    refine
      { wc := ?_, wq := ?_, lo := ?_, hi := ?_, tnone := ?_, mode := ?_,
        paused := ?_, pickupNone := hpk, destMid := ?_, nodup := ?_, rint := ?_,
        rup := ?_, rdown := ?_, rpint := ?_, rpup := ?_, rpdown := ?_, remerg := ?_ }
    · simpa using wc
    · simpa using wq
    · simpa using lo
    · simpa using hi
    · simpa using tnone
    · simp [hm, hE]
      rw [if_pos hmem]
      exact fun hc => (hq1list ▸ hE) hc
    · simp [hp, hm]
    · intro r hr
      cases hr
    · simp only [remove_emergency_list]
      rw [if_pos hmem]
      exact nodup.erase _
    · simpa using rint
    · simpa using rup
    · simpa using rdown
    · simpa using rpint
    · simpa using rpup
    · simpa using rpdown
    · intro r hr
      have hr2 : r ∈ u.queue_manager.emergency_requests.erase (f, t) := by
        have hx : r ∈ (if (f, t) ∈ u.queue_manager.emergency_requests then
            u.queue_manager.emergency_requests.erase (f, t)
          else u.queue_manager.emergency_requests) := by simpa using hr
        rwa [if_pos hmem] at hx
      exact remerg r (List.mem_of_mem_erase hr2)

lemma mid_open_doors (s : ElevatorSystem) (h : MidInv s) :
    MidInv { s with controller := s.controller.open_doors } := by
  refine mid_replace s h _ s.queue_manager ?_ ?_ ?_ rfl rfl rfl
    (fun x hx => hx) (fun x hx => hx) (fun x hx => hx)
    (fun x hx => hx) (fun x hx => hx) (fun x hx => hx) <;> simp
lemma sea_none (s : ElevatorSystem) (nf : Int)
    (hpk : s.current_emergency_pickup = none)
    (hdst : s.current_emergency_destination = none) :
    s.step_emergency_arrival nf = s := by
  unfold ElevatorSystem.step_emergency_arrival
  simp [hpk, hdst]

lemma sea_dest_complete (s : ElevatorSystem) (nf f t : Int)
    (hpk : s.current_emergency_pickup = none)
    (hdst : s.current_emergency_destination = some (f, t))
    (hnt : nf = t) :
    s.step_emergency_arrival nf =
      { complete_arrival s f t with
        controller := (complete_arrival s f t).controller.open_doors } := by
  unfold ElevatorSystem.step_emergency_arrival complete_arrival
  simp [hpk, hdst, hnt]

lemma sea_pickup_transfer (s : ElevatorSystem) (nf f t : Int)
    (hpk : s.current_emergency_pickup = some (f, t))
    (hf : nf = f) (hnt : ¬ nf = t) :
    s.step_emergency_arrival nf =
      { s with
        current_emergency_pickup := none
        current_emergency_destination := some (f, t)
        controller := (s.controller.add_passenger).open_doors } := by
  have hnt2 : ¬ f = t := by rw [← hf]; exact hnt
  unfold ElevatorSystem.step_emergency_arrival
  simp [hpk, hf, hnt2]

lemma sea_pickup_complete (s : ElevatorSystem) (nf f t : Int)
    (hpk : s.current_emergency_pickup = some (f, t))
    (hf : nf = f) (hnt : nf = t) :
    s.step_emergency_arrival nf =
      (let s2 := { s with
        current_emergency_pickup := none
        current_emergency_destination := some (f, t)
        controller := s.controller.add_passenger }
      { complete_arrival s2 f t with
        controller := (complete_arrival s2 f t).controller.open_doors }) := by
  have hft : f = t := hf.symm.trans hnt
  unfold ElevatorSystem.step_emergency_arrival complete_arrival
  simp [hpk, hf, hft]

lemma mid_emergency_arrival (s : ElevatorSystem) (h : Inv s)
    (hm : s.emergency_mode = true)
    (ht : s.controller.target_floor = some s.controller.current_floor) :
    MidInv (({ s with controller :=
        { s.controller with is_moving := false, target_floor := none } } :
      ElevatorSystem).step_emergency_arrival s.controller.current_floor) := by
  rcases hpk : s.current_emergency_pickup with _ | ⟨f, t⟩
  · rcases hdst : s.current_emergency_destination with _ | ⟨f, t⟩
    · -- no leg in progress: the arrival block changes nothing
      rw [sea_none _ _ rfl rfl]
      refine
        { wc := h.wc, wq := h.wq, lo := h.lo, hi := h.hi, tnone := rfl,
          mode := h.mode, paused := h.paused, pickupNone := rfl, destMid := ?_,
          nodup := h.nodup, rint := h.rint, rup := h.rup, rdown := h.rdown,
          rpint := h.rpint, rpup := h.rpup, rpdown := h.rpdown, remerg := h.remerg }
      intro r hr
      have hr2 : (none : Option (Int × Int)) = some r := hr
      cases hr2
    · -- in-progress destination reached: complete the emergency request
      obtain ⟨hmem, htf⟩ := h.destInv (f, t) hdst
      have htt : t = s.controller.current_floor := by
        simp only [ht, Option.some.injEq] at htf
        exact htf.symm
      have hp1 : s.queue_manager.is_paused = true := h.paused.trans hm
      rw [sea_dest_complete _ _ f t rfl rfl htt.symm]
      exact mid_open_doors _ (mid_completion
        ({ s with
            controller := { s.controller with is_moving := false, target_floor := none }
            current_emergency_pickup := none
            current_emergency_destination := some (f, t) })
        f t h.wc h.wq h.lo h.hi rfl hm hp1 rfl hmem h.nodup h.rint h.rup h.rdown
        h.rpint h.rpup h.rpdown h.remerg)
  · -- in-progress pickup reached: board and switch the leg to its destination
    obtain ⟨hmem, htf⟩ := h.pickupInv (f, t) hpk
    have hff : f = s.controller.current_floor := by
      simp only [ht, Option.some.injEq] at htf
      exact htf.symm
    have hp1 : s.queue_manager.is_paused = true := h.paused.trans hm
    by_cases hct : s.controller.current_floor = t
    · -- the destination equals the pickup floor: completed in the same step
      rw [sea_pickup_complete _ _ f t rfl hff.symm hct]
      exact mid_open_doors _ (mid_completion
        ({ s with
            controller := ({ s.controller with
              is_moving := false, target_floor := none } :
                ElevatorController).add_passenger
            current_emergency_pickup := none
            current_emergency_destination := some (f, t) })
        f t (by simpa using h.wc) h.wq (by simpa using h.lo) (by simpa using h.hi)
        (by simp) hm hp1 rfl hmem h.nodup h.rint h.rup h.rdown
        h.rpint h.rpup h.rpdown h.remerg)
    · -- destination elsewhere: the destination leg stays committed
      rw [sea_pickup_transfer _ _ f t rfl hff.symm hct]
      refine
        { wc := ?_, wq := h.wq, lo := ?_, hi := ?_, tnone := ?_,
          mode := h.mode, paused := h.paused, pickupNone := rfl, destMid := ?_,
          nodup := h.nodup, rint := h.rint, rup := h.rup, rdown := h.rdown,
          rpint := h.rpint, rpup := h.rpup, rpdown := h.rpdown, remerg := h.remerg }
      · simpa using h.wc
      · simpa using h.lo
      · simpa using h.hi
      · simp
      · intro r hr
        have hr2 : some ((f : Int), (t : Int)) = some r := hr
        injection hr2 with hr2
        subst hr2
        refine ⟨hmem, ?_⟩
        simpa using hct

lemma step_false_shape (s : ElevatorSystem) (hp : ¬ s.is_paused = true)
    (c : ElevatorController) (hcs : s.controller.step = (false, c)) :
    (s.step).2 = { s with controller := c } := by
  unfold ElevatorSystem.step
  rw [if_neg hp, hcs]
  rfl

lemma step_arrival_shape (s : ElevatorSystem) (hp : ¬ s.is_paused = true)
    (c : ElevatorController) (hcs : s.controller.step = (true, c)) :
    (s.step).2 = arrival_process { s with controller := c } c.current_floor := by
  unfold ElevatorSystem.step arrival_process
  rw [if_neg hp, hcs]
  rfl

lemma mid_of_inv (s : ElevatorSystem) (h : Inv s)
    (ht : s.controller.target_floor = none) : MidInv s := by
  have hpk : s.current_emergency_pickup = none := by
    rcases hp : s.current_emergency_pickup with _ | r
    · rfl
    · obtain ⟨_, htf⟩ := h.pickupInv r hp
      rw [ht] at htf
      cases htf
  have hdn : s.current_emergency_destination = none := by
    rcases hd : s.current_emergency_destination with _ | r
    · rfl
    · obtain ⟨_, htf⟩ := h.destInv r hd
      rw [ht] at htf
      cases htf
  have hdm : ∀ r, s.current_emergency_destination = some r →
      r ∈ s.queue_manager.emergency_requests ∧ s.controller.current_floor ≠ r.2 := by
    intro r hr
    rw [hdn] at hr
    cases hr
  exact
    { wc := h.wc, wq := h.wq, lo := h.lo, hi := h.hi, tnone := ht,
      mode := h.mode, paused := h.paused, pickupNone := hpk, destMid := hdm,
      nodup := h.nodup, rint := h.rint, rup := h.rup, rdown := h.rdown,
      rpint := h.rpint, rpup := h.rpup, rpdown := h.rpdown, remerg := h.remerg }

lemma inv_arrival_process (s1 : ElevatorSystem) (nf : Int)
    (hmid_of : s1.emergency_mode = true → MidInv (s1.step_emergency_arrival nf))
    (hmid_no : s1.emergency_mode = false → MidInv s1) :
    Inv (arrival_process s1 nf) := by
  simp only [arrival_process]
  by_cases hm : s1.emergency_mode = true
  · have hmid2 := hmid_of hm
    rw [if_pos hm]
    by_cases hm2 : (s1.step_emergency_arrival nf).emergency_mode = false
    · rw [if_pos hm2]
      have hmid3 := mid_normal_arrival _ hmid2 nf
      rcases hg : ((s1.step_emergency_arrival nf).step_normal_arrival nf).get_next_target
        with ⟨next, s4⟩
      cases next with
      | some t => exact inv_select_some _ hmid3 t s4 hg
      | none => exact inv_select_none_idle _ hmid3 s4 hg
    · rw [if_neg hm2]
      rcases hg : (s1.step_emergency_arrival nf).get_next_target with ⟨next, s4⟩
      cases next with
      | some t => exact inv_select_some _ hmid2 t s4 hg
      | none => exact inv_select_none_idle _ hmid2 s4 hg
  · have hm' : s1.emergency_mode = false := by
      cases hb : s1.emergency_mode
      · rfl
      · exact absurd hb hm
    have hmid2 := hmid_no hm'
    rw [if_neg hm]
    rw [if_pos hm']
    have hmid3 := mid_normal_arrival _ hmid2 nf
    rcases hg : (s1.step_normal_arrival nf).get_next_target with ⟨next, s4⟩
    cases next with
    | some t => exact inv_select_some _ hmid3 t s4 hg
    | none => exact inv_select_none_idle _ hmid3 s4 hg

lemma inv_step (s : ElevatorSystem) (h : Inv s) : Inv (s.step).2 := by
  by_cases hp : s.is_paused = true
  · have hshape : (s.step).2 = s := by
      unfold ElevatorSystem.step
      rw [if_pos hp]
    rw [hshape]
    exact h
  · by_cases hd : s.controller.door_state = DoorState.closed
    · rcases htf : s.controller.target_floor with _ | t
      · -- no target: the controller goes idle
        rw [step_false_shape s hp _ (cstep_no_target s.controller hd htf)]
        refine
          { wc := h.wc, wq := h.wq, lo := h.lo, hi := h.hi, target := ?_,
            mode := h.mode, paused := h.paused, pickupInv := ?_, destInv := ?_,
            notBoth := h.notBoth, nodup := h.nodup, rint := h.rint, rup := h.rup,
            rdown := h.rdown, rpint := h.rpint, rpup := h.rpup, rpdown := h.rpdown,
            remerg := h.remerg }
        · intro t' htx
          have h2 : s.controller.target_floor = some t' := htx
          rw [htf] at h2
          cases h2
        · intro r hr
          obtain ⟨_, htr⟩ := h.pickupInv r hr
          rw [htf] at htr
          cases htr
        · intro r hr
          obtain ⟨_, htr⟩ := h.destInv r hr
          rw [htf] at htr
          cases htr
      · by_cases harr : s.controller.current_floor = t
        · -- arrival at the committed target
          have ht2 : s.controller.target_floor = some s.controller.current_floor := by
            rw [htf, harr]
          rw [step_arrival_shape s hp _ (cstep_arrival s.controller t hd htf harr)]
          refine inv_arrival_process _ _ (fun hm => ?_) (fun hm => ?_)
          · exact mid_emergency_arrival s h hm ht2
          · -- emergency mode off: no leg can be in progress
            have hm0 : s.emergency_mode = false := hm
            have hempty : s.queue_manager.emergency_requests = [] := by
              by_contra hx
              have hmt := h.mode.mpr hx
              rw [hm0] at hmt
              cases hmt
            have hpk : s.current_emergency_pickup = none := by
              rcases hq : s.current_emergency_pickup with _ | r
              · rfl
              · obtain ⟨hmem, _⟩ := h.pickupInv r hq
                rw [hempty] at hmem
                cases hmem
            have hdn : s.current_emergency_destination = none := by
              rcases hq : s.current_emergency_destination with _ | r
              · rfl
              · obtain ⟨hmem, _⟩ := h.destInv r hq
                rw [hempty] at hmem
                cases hmem
            have hdm : ∀ r, s.current_emergency_destination = some r →
                r ∈ s.queue_manager.emergency_requests ∧
                  s.controller.current_floor ≠ r.2 := by
              intro r hr
              rw [hdn] at hr
              cases hr
            exact
              { wc := h.wc, wq := h.wq, lo := h.lo, hi := h.hi, tnone := rfl,
                mode := h.mode, paused := h.paused, pickupNone := hpk,
                destMid := hdm,
                nodup := h.nodup, rint := h.rint, rup := h.rup, rdown := h.rdown,
                rpint := h.rpint, rpup := h.rpup, rpdown := h.rpdown,
                remerg := h.remerg }
        · -- move one floor toward the target
          obtain ⟨h1t, h2t, hdir⟩ := h.target t htf
          rcases hdir with ⟨hup, hle⟩ | ⟨hdn, hge⟩
          · have hcs := cstep_move s.controller t hd htf harr
            rw [hup] at hcs
            rw [step_false_shape s hp _ hcs]
            refine
              { wc := h.wc, wq := h.wq, lo := ?_, hi := ?_, target := ?_,
                mode := h.mode, paused := h.paused, pickupInv := ?_, destInv := ?_,
                notBoth := h.notBoth, nodup := h.nodup, rint := h.rint, rup := h.rup,
                rdown := h.rdown, rpint := h.rpint, rpup := h.rpup, rpdown := h.rpdown,
                remerg := h.remerg }
            · show 1 ≤ s.controller.current_floor + 1
              have := h.lo
              omega
            · show s.controller.current_floor + 1 ≤ s.num_floors
              have : s.controller.current_floor < t := lt_of_le_of_ne hle harr
              omega
            · intro t' htx
              have h2 : s.controller.target_floor = some t' := htx
              rw [htf] at h2
              injection h2 with h2
              subst h2
              refine ⟨h1t, h2t, Or.inl ⟨rfl, ?_⟩⟩
              show s.controller.current_floor + 1 ≤ t
              have : s.controller.current_floor < t := lt_of_le_of_ne hle harr
              omega
            · intro r hr
              obtain ⟨hmem, htr⟩ := h.pickupInv r hr
              exact ⟨hmem, htr⟩
            · intro r hr
              obtain ⟨hmem, htr⟩ := h.destInv r hr
              exact ⟨hmem, htr⟩
          · have hcs := cstep_move s.controller t hd htf harr
            rw [hdn] at hcs
            rw [step_false_shape s hp _ hcs]
            refine
              { wc := h.wc, wq := h.wq, lo := ?_, hi := ?_, target := ?_,
                mode := h.mode, paused := h.paused, pickupInv := ?_, destInv := ?_,
                notBoth := h.notBoth, nodup := h.nodup, rint := h.rint, rup := h.rup,
                rdown := h.rdown, rpint := h.rpint, rpup := h.rpup, rpdown := h.rpdown,
                remerg := h.remerg }
            · show 1 ≤ s.controller.current_floor - 1
              have : t < s.controller.current_floor :=
                lt_of_le_of_ne hge (fun hx => harr hx.symm)
              omega
            · show s.controller.current_floor - 1 ≤ s.num_floors
              have := h.hi
              omega
            · intro t' htx
              have h2 : s.controller.target_floor = some t' := htx
              rw [htf] at h2
              injection h2 with h2
              subst h2
              refine ⟨h1t, h2t, Or.inr ⟨rfl, ?_⟩⟩
              show t ≤ s.controller.current_floor - 1
              have : t < s.controller.current_floor :=
                lt_of_le_of_ne hge (fun hx => harr hx.symm)
              omega
            · intro r hr
              obtain ⟨hmem, htr⟩ := h.pickupInv r hr
              exact ⟨hmem, htr⟩
            · intro r hr
              obtain ⟨hmem, htr⟩ := h.destInv r hr
              exact ⟨hmem, htr⟩
    · -- doors in transition: only the door fields change
      obtain ⟨ds, dt, hud⟩ := update_doors_only_doors s.controller
      have hcs := cstep_doors s.controller hd
      rw [hud] at hcs
      rw [step_false_shape s hp _ hcs]
      exact
        { wc := h.wc, wq := h.wq, lo := h.lo, hi := h.hi, target := h.target,
          mode := h.mode, paused := h.paused, pickupInv := h.pickupInv,
          destInv := h.destInv, notBoth := h.notBoth, nodup := h.nodup,
          rint := h.rint, rup := h.rup, rdown := h.rdown, rpint := h.rpint,
          rpup := h.rpup, rpdown := h.rpdown, remerg := h.remerg }

lemma inv_update (s : ElevatorSystem) (h : Inv s) : Inv (s.update).2 := by
  simp only [ElevatorSystem.update]
  by_cases hp : s.is_paused = true
  · rw [if_pos hp]
    exact h
  · rw [if_neg hp]
    by_cases htf : s.controller.target_floor = none
    · rw [if_pos htf]
      have hmid := mid_of_inv s h htf
      rcases hg : s.get_next_target with ⟨next, s1⟩
      cases next with
      | some t => exact inv_step _ (inv_select_some s hmid t s1 hg)
      | none => exact inv_step _ (inv_select_none_keep s hmid s1 hg)
    · rw [if_neg htf]
      exact inv_step s h

lemma inv_init (num_floors start_floor : Int) (start_direction : Direction)
    (h1 : 1 ≤ start_floor) (h2 : start_floor ≤ num_floors) :
    Inv (ElevatorSystem.init num_floors start_floor start_direction) := by
  refine
    { wc := rfl, wq := rfl, lo := h1, hi := h2, target := ?_,
      mode := by simp [ElevatorSystem.init, QueueManager.init],
      paused := rfl, pickupInv := ?_, destInv := ?_, notBoth := Or.inl rfl,
      nodup := List.nodup_nil, rint := ?_, rup := ?_, rdown := ?_, rpint := ?_,
      rpup := ?_, rpdown := ?_, remerg := ?_ }
  · intro t ht
    cases ht
  · intro r hr
    cases hr
  · intro r hr
    cases hr
  all_goals intro x hx; cases hx

lemma inv_queue_grow (s : ElevatorSystem) (h : Inv s) (q : QueueManager)
    (hq1 : q.num_floors = s.queue_manager.num_floors)
    (hq2 : q.emergency_requests = s.queue_manager.emergency_requests)
    (hq3 : q.is_paused = s.queue_manager.is_paused)
    (hq4 : ∀ f ∈ q.internal_requests,
      f ∈ s.queue_manager.internal_requests ∨ (1 ≤ f ∧ f ≤ s.num_floors))
    (hq5 : ∀ f ∈ q.external_up_requests,
      f ∈ s.queue_manager.external_up_requests ∨ (1 ≤ f ∧ f ≤ s.num_floors))
    (hq6 : ∀ f ∈ q.external_down_requests,
      f ∈ s.queue_manager.external_down_requests ∨ (1 ≤ f ∧ f ≤ s.num_floors))
    (hq7 : ∀ f ∈ q.paused_internal,
      f ∈ s.queue_manager.paused_internal ∨ (1 ≤ f ∧ f ≤ s.num_floors))
    (hq8 : ∀ f ∈ q.paused_external_up,
      f ∈ s.queue_manager.paused_external_up ∨ (1 ≤ f ∧ f ≤ s.num_floors))
    (hq9 : ∀ f ∈ q.paused_external_down,
      f ∈ s.queue_manager.paused_external_down ∨ (1 ≤ f ∧ f ≤ s.num_floors)) :
    Inv { s with queue_manager := q } := by
  refine
    { wc := h.wc, wq := hq1.trans h.wq, lo := h.lo, hi := h.hi, target := h.target,
      mode := ?_, paused := ?_, pickupInv := ?_, destInv := ?_,
      notBoth := h.notBoth, nodup := ?_, rint := ?_, rup := ?_, rdown := ?_,
      rpint := ?_, rpup := ?_, rpdown := ?_, remerg := ?_ }
  · show s.emergency_mode = true ↔ q.emergency_requests ≠ []
    rw [hq2]; exact h.mode
  · show q.is_paused = s.emergency_mode
    rw [hq3]; exact h.paused
  · intro r hr
    obtain ⟨hmem, htr⟩ := h.pickupInv r hr
    refine ⟨?_, htr⟩
    show r ∈ q.emergency_requests
    rw [hq2]; exact hmem
  · intro r hr
    obtain ⟨hmem, htr⟩ := h.destInv r hr
    refine ⟨?_, htr⟩
    show r ∈ q.emergency_requests
    rw [hq2]; exact hmem
  · show q.emergency_requests.Nodup
    rw [hq2]; exact h.nodup
  · intro f hf
    rcases hq4 f hf with hf2 | hf2
    · exact h.rint f hf2
    · exact hf2
  · intro f hf
    rcases hq5 f hf with hf2 | hf2
    · exact h.rup f hf2
    · exact hf2
  · intro f hf
    rcases hq6 f hf with hf2 | hf2
    · exact h.rdown f hf2
    · exact hf2
  · intro f hf
    rcases hq7 f hf with hf2 | hf2
    · exact h.rpint f hf2
    · exact hf2
  · intro f hf
    rcases hq8 f hf with hf2 | hf2
    · exact h.rpup f hf2
    · exact hf2
  · intro f hf
    rcases hq9 f hf with hf2 | hf2
    · exact h.rpdown f hf2
    · exact hf2
  · intro r hr
    have hr2 : r ∈ s.queue_manager.emergency_requests := hq2 ▸ hr
    exact h.remerg r hr2

lemma inv_add_internal (s : ElevatorSystem) (h : Inv s) (floor : Int) :
    Inv (s.add_internal_request floor).2 := by
  unfold ElevatorSystem.add_internal_request
  by_cases hm : s.emergency_mode = true
  · rw [if_pos hm]
    exact h
  · rw [if_neg hm]
    have hm0 : s.emergency_mode = false := by
      cases hb : s.emergency_mode
      · rfl
      · exact absurd hb hm
    have hps : s.queue_manager.is_paused = false := h.paused.trans hm0
    simp only [QueueManager.add_internal_request]
    by_cases hr : 1 ≤ floor ∧ floor ≤ s.queue_manager.num_floors
    · rw [if_neg (not_not_intro hr)]
      rw [if_neg (show ¬ (s.queue_manager.is_paused = true) by simp [hps])]
      by_cases hmem : floor ∈ s.queue_manager.internal_requests
      · rw [if_pos hmem]
        exact h
      · rw [if_neg hmem]
        refine inv_queue_grow s h _ rfl rfl rfl ?_ (fun x hx => Or.inl hx)
          (fun x hx => Or.inl hx) (fun x hx => Or.inl hx) (fun x hx => Or.inl hx)
          (fun x hx => Or.inl hx)
        intro x hx
        rcases List.mem_append.mp hx with hx2 | hx2
        · exact Or.inl hx2
        · have hx3 : x = floor := List.mem_singleton.mp hx2
          subst hx3
          exact Or.inr ⟨hr.1, h.wq ▸ hr.2⟩
    · rw [if_pos hr]
      exact h

lemma inv_add_external (s : ElevatorSystem) (h : Inv s) (floor : Int) (d : Direction) :
    Inv (s.add_external_request floor d).2 := by
  unfold ElevatorSystem.add_external_request
  by_cases hm : s.emergency_mode = true
  · rw [if_pos hm]
    exact h
  · rw [if_neg hm]
    have hm0 : s.emergency_mode = false := by
      cases hb : s.emergency_mode
      · rfl
      · exact absurd hb hm
    have hps : s.queue_manager.is_paused = false := h.paused.trans hm0
    simp only [QueueManager.add_external_request]
    by_cases hr : 1 ≤ floor ∧ floor ≤ s.queue_manager.num_floors
    · rw [if_neg (not_not_intro hr)]
      rw [if_neg (show ¬ (s.queue_manager.is_paused = true) by simp [hps])]
      by_cases hdir : d = Direction.up
      · rw [if_pos hdir]
        by_cases hmem : floor ∈ s.queue_manager.external_up_requests
        · rw [if_pos hmem]
          exact h
        · rw [if_neg hmem]
          refine inv_queue_grow s h _ rfl rfl rfl (fun x hx => Or.inl hx) ?_
            (fun x hx => Or.inl hx) (fun x hx => Or.inl hx) (fun x hx => Or.inl hx)
            (fun x hx => Or.inl hx)
          intro x hx
          rcases List.mem_append.mp hx with hx2 | hx2
          · exact Or.inl hx2
          · have hx3 : x = floor := List.mem_singleton.mp hx2
            subst hx3
            exact Or.inr ⟨hr.1, h.wq ▸ hr.2⟩
      · rw [if_neg hdir]
        by_cases hmem : floor ∈ s.queue_manager.external_down_requests
        · rw [if_pos hmem]
          exact h
        · rw [if_neg hmem]
          refine inv_queue_grow s h _ rfl rfl rfl (fun x hx => Or.inl hx)
            (fun x hx => Or.inl hx) ?_ (fun x hx => Or.inl hx) (fun x hx => Or.inl hx)
            (fun x hx => Or.inl hx)
          intro x hx
          rcases List.mem_append.mp hx with hx2 | hx2
          · exact Or.inl hx2
          · have hx3 : x = floor := List.mem_singleton.mp hx2
            subst hx3
            exact Or.inr ⟨hr.1, h.wq ▸ hr.2⟩
    · rw [if_pos hr]
      exact h

lemma inv_add_emergency (s : ElevatorSystem) (h : Inv s) (f t : Int) :
    Inv (s.add_emergency_request f t).2 := by
  unfold ElevatorSystem.add_emergency_request
  simp only [QueueManager.add_emergency_request]
  by_cases hr : 1 ≤ f ∧ f ≤ s.queue_manager.num_floors ∧
      1 ≤ t ∧ t ≤ s.queue_manager.num_floors
  · rw [if_neg (not_not_intro hr)]
    by_cases hmem : (f, t) ∈ s.queue_manager.emergency_requests
    · rw [if_pos hmem]
      show Inv (({ s with queue_manager := s.queue_manager } :
        ElevatorSystem).trigger_emergency)
      unfold ElevatorSystem.trigger_emergency
      by_cases hmode : ({ s with queue_manager := s.queue_manager } :
          ElevatorSystem).emergency_mode = true
      · rw [if_pos hmode]
        exact h
      · have hm0 : s.emergency_mode = false := by
          cases hb : s.emergency_mode
          · rfl
          · exact absurd hb hmode
        have hempty : s.queue_manager.emergency_requests = [] := by
          by_contra hx
          have hmt := h.mode.mpr hx
          rw [hm0] at hmt
          cases hmt
        rw [hempty] at hmem
        cases hmem
    · rw [if_neg hmem]
      by_cases hmode : s.emergency_mode = true
      · -- already in emergency mode: the trigger is a no-op
        have hshape : ∀ s1 : ElevatorSystem, s1.emergency_mode = true →
            s1.trigger_emergency = s1 := by
          intro s1 hs1
          unfold ElevatorSystem.trigger_emergency
          rw [if_pos hs1]
        rw [hshape _ (by exact hmode)]
        refine
          { wc := h.wc, wq := h.wq, lo := h.lo, hi := h.hi, target := h.target,
            mode := ?_, paused := h.paused, pickupInv := ?_, destInv := ?_,
            notBoth := h.notBoth, nodup := ?_, rint := h.rint, rup := h.rup,
            rdown := h.rdown, rpint := h.rpint, rpup := h.rpup, rpdown := h.rpdown,
            remerg := ?_ }
        · constructor
          · intro _
            simp
          · intro _
            exact hmode
        · intro r hrp
          obtain ⟨hmem2, htr⟩ := h.pickupInv r hrp
          exact ⟨List.mem_append_left _ hmem2, htr⟩
        · intro r hrp
          obtain ⟨hmem2, htr⟩ := h.destInv r hrp
          exact ⟨List.mem_append_left _ hmem2, htr⟩
        · show (s.queue_manager.emergency_requests ++ [(f, t)]).Nodup
          rw [List.nodup_append]
          refine ⟨h.nodup, List.nodup_singleton _, ?_⟩
          intro a ha hb
          have hab : a = (f, t) := List.mem_singleton.mp hb
          subst hab
          exact hmem ha
        · intro r hrp
          rcases List.mem_append.mp hrp with hx | hx
          · exact h.remerg r hx
          · have hx2 : r = (f, t) := List.mem_singleton.mp hx
            subst hx2
            exact ⟨hr.1, h.wq ▸ hr.2.1, hr.2.2.1, h.wq ▸ hr.2.2.2⟩
      · -- first emergency request: enter emergency mode and pause
        have hm0 : s.emergency_mode = false := by
          cases hb : s.emergency_mode
          · rfl
          · exact absurd hb hmode
        have hempty : s.queue_manager.emergency_requests = [] := by
          by_contra hx
          have hmt := h.mode.mpr hx
          rw [hm0] at hmt
          cases hmt
        have hps : s.queue_manager.is_paused = false := h.paused.trans hm0
        have hpknone : s.current_emergency_pickup = none := by
          rcases hq : s.current_emergency_pickup with _ | r
          · rfl
          · obtain ⟨hmem2, _⟩ := h.pickupInv r hq
            rw [hempty] at hmem2
            cases hmem2
        have hdnone : s.current_emergency_destination = none := by
          rcases hq : s.current_emergency_destination with _ | r
          · rfl
          · obtain ⟨hmem2, _⟩ := h.destInv r hq
            rw [hempty] at hmem2
            cases hmem2
        unfold ElevatorSystem.trigger_emergency
        rw [if_neg (show ¬ (({ s with queue_manager := { s.queue_manager with
          emergency_requests := s.queue_manager.emergency_requests ++ [(f, t)]
          request_times := insertSet (RKey.emergency f t) s.queue_manager.request_times } } :
            ElevatorSystem).emergency_mode = true) by simpa using hmode)]
        simp only [QueueManager.pause_normal_requests]
        rw [if_neg (show ¬ (s.queue_manager.is_paused = true) by simp [hps])]
        refine
          { wc := h.wc, wq := h.wq, lo := h.lo, hi := h.hi, target := h.target,
            mode := ?_, paused := rfl, pickupInv := ?_, destInv := ?_,
            notBoth := Or.inl hpknone, nodup := ?_, rint := ?_, rup := ?_,
            rdown := ?_, rpint := ?_, rpup := ?_, rpdown := ?_, remerg := ?_ }
        · simp
        · intro r hrp
          have hrp2 : s.current_emergency_pickup = some r := hrp
          rw [hpknone] at hrp2
          cases hrp2
        · intro r hrp
          have hrp2 : s.current_emergency_destination = some r := hrp
          rw [hdnone] at hrp2
          cases hrp2
        · show (s.queue_manager.emergency_requests ++ [(f, t)]).Nodup
          rw [List.nodup_append]
          refine ⟨h.nodup, List.nodup_singleton _, ?_⟩
          intro a ha hb
          have hab : a = (f, t) := List.mem_singleton.mp hb
          subst hab
          exact hmem ha
        · intro x hx
          cases hx
        · intro x hx
          cases hx
        · intro x hx
          cases hx
        · exact h.rint
        · exact h.rup
        · exact h.rdown
        · intro r hrp
          rcases List.mem_append.mp hrp with hx | hx
          · exact h.remerg r hx
          · have hx2 : r = (f, t) := List.mem_singleton.mp hx
            subst hx2
            exact ⟨hr.1, h.wq ▸ hr.2.1, hr.2.2.1, h.wq ▸ hr.2.2.2⟩
  · rw [if_pos hr]
    exact h

lemma inv_set_paused (s : ElevatorSystem) (h : Inv s) (b : Bool) :
    Inv { s with is_paused := b } :=
  { wc := h.wc, wq := h.wq, lo := h.lo, hi := h.hi, target := h.target,
    mode := h.mode, paused := h.paused, pickupInv := h.pickupInv,
    destInv := h.destInv, notBoth := h.notBoth, nodup := h.nodup,
    rint := h.rint, rup := h.rup, rdown := h.rdown, rpint := h.rpint,
    rpup := h.rpup, rpdown := h.rpdown, remerg := h.remerg }

lemma inv_reachable (s : ElevatorSystem) (h : Reachable s) : Inv s := by
  induction h with
  | init num_floors start_floor start_direction h1 h2 =>
      exact inv_init num_floors start_floor start_direction h1 h2
  | op s1 o _ ih =>
      cases o with
      | addInternal floor => exact inv_add_internal s1 ih floor
      | addExternal floor direction => exact inv_add_external s1 ih floor direction
      | addEmergency f t => exact inv_add_emergency s1 ih f t
      | update => exact inv_update s1 ih
      | pause => exact inv_set_paused s1 ih true
      | resume => exact inv_set_paused s1 ih false
      | togglePause => exact inv_set_paused s1 ih (! s1.is_paused)

/-- C5: for every system constructed with a start floor in `[1, N]` and every
sequence of public operations (request submissions, updates, pause/resume),
the car's current floor stays within `[1, N]`. -/
theorem C5_floor_in_bounds (s : ElevatorSystem) (h : Reachable s) :
    1 ≤ s.controller.current_floor ∧ s.controller.current_floor ≤ s.num_floors :=
  ⟨(inv_reachable s h).lo, (inv_reachable s h).hi⟩

/-- C5 witness: the bounds at a concrete reachable state (10 floors, start at
3 heading up, after submitting external-Up(4) and running one update, which
moves the car). -/
theorem C5_witness :
    1 ≤ (applyOp (applyOp (ElevatorSystem.init 10 3 Direction.up)
        (Op.addExternal 4 Direction.up)) Op.update).controller.current_floor ∧
    (applyOp (applyOp (ElevatorSystem.init 10 3 Direction.up)
        (Op.addExternal 4 Direction.up)) Op.update).controller.current_floor ≤
      (applyOp (applyOp (ElevatorSystem.init 10 3 Direction.up)
        (Op.addExternal 4 Direction.up)) Op.update).num_floors :=
  C5_floor_in_bounds _
    (Reachable.op _ Op.update (Reachable.op _ (Op.addExternal 4 Direction.up)
      (Reachable.init 10 3 Direction.up (by decide) (by decide))))

/-- C3: at every observation point between public operations, emergency mode
is on exactly when the emergency list is non-empty or an in-progress
pickup/destination leg is outstanding; and the store's normal requests are
paused exactly while emergency mode is on (so `resumeNormal` has been
applied exactly when the mode is off). -/
theorem C3_emergency_mode_iff (s : ElevatorSystem) (h : Reachable s) :
    (s.emergency_mode = true ↔
      (s.queue_manager.emergency_requests ≠ [] ∨
       s.current_emergency_pickup ≠ none ∨
       s.current_emergency_destination ≠ none)) ∧
    s.queue_manager.is_paused = s.emergency_mode := by
  have hInv := inv_reachable s h
  refine ⟨⟨fun hm => Or.inl (hInv.mode.mp hm), fun hor => ?_⟩, hInv.paused⟩
  rcases hor with hx | hx | hx
  · exact hInv.mode.mpr hx
  · rcases hp : s.current_emergency_pickup with _ | r
    · exact absurd hp hx
    · exact hInv.mode.mpr (List.ne_nil_of_mem (hInv.pickupInv r hp).1)
  · rcases hp : s.current_emergency_destination with _ | r
    · exact absurd hp hx
    · exact hInv.mode.mpr (List.ne_nil_of_mem (hInv.destInv r hp).1)

/-- C3 witness: the equivalence at a concrete reachable state with an active
emergency (after submitting emergency(4, 10)). -/
theorem C3_witness :
    ((applyOp (ElevatorSystem.init 10 3 Direction.up)
        (Op.addEmergency 4 10)).emergency_mode = true ↔
      ((applyOp (ElevatorSystem.init 10 3 Direction.up)
          (Op.addEmergency 4 10)).queue_manager.emergency_requests ≠ [] ∨
       (applyOp (ElevatorSystem.init 10 3 Direction.up)
          (Op.addEmergency 4 10)).current_emergency_pickup ≠ none ∨
       (applyOp (ElevatorSystem.init 10 3 Direction.up)
          (Op.addEmergency 4 10)).current_emergency_destination ≠ none)) ∧
    (applyOp (ElevatorSystem.init 10 3 Direction.up)
        (Op.addEmergency 4 10)).queue_manager.is_paused =
      (applyOp (ElevatorSystem.init 10 3 Direction.up)
        (Op.addEmergency 4 10)).emergency_mode :=
  C3_emergency_mode_iff _
    (Reachable.op _ (Op.addEmergency 4 10)
      (Reachable.init 10 3 Direction.up (by decide) (by decide)))

@[simp] lemma pause_emerg (q : QueueManager) :
    (q.pause_normal_requests).emergency_requests = q.emergency_requests := by
  simp only [QueueManager.pause_normal_requests]; split_ifs <;> rfl

@[simp] lemma pause_is_paused (q : QueueManager) :
    (q.pause_normal_requests).is_paused = true := by
  simp only [QueueManager.pause_normal_requests]
  split_ifs with hq
  · exact hq
  · rfl

lemma add_emergency_result (q : QueueManager) (f t : Int) :
    (q.add_emergency_request f t).1 =
      decide (1 ≤ f ∧ f ≤ q.num_floors ∧ 1 ≤ t ∧ t ≤ q.num_floors) := by
  unfold QueueManager.add_emergency_request
  split_ifs with h1 h2 <;> simp_all

lemma add_internal_result (q : QueueManager) (floor : Int) :
    (q.add_internal_request floor).1 =
      decide (1 ≤ floor ∧ floor ≤ q.num_floors) := by
  unfold QueueManager.add_internal_request
  split_ifs with h1 h2 h3 <;> simp_all

lemma add_external_result (q : QueueManager) (floor : Int) (d : Direction) :
    (q.add_external_request floor d).1 =
      decide (1 ≤ floor ∧ floor ≤ q.num_floors) := by
  unfold QueueManager.add_external_request
  split_ifs <;> simp_all

lemma add_emergency_sys_fst (s : ElevatorSystem) (f t : Int) :
    (s.add_emergency_request f t).1 = (s.queue_manager.add_emergency_request f t).1 := by
  unfold ElevatorSystem.add_emergency_request
  rcases hq : s.queue_manager.add_emergency_request f t with ⟨r, q⟩
  cases r <;> rfl

/-- C8: `addEmergencyRequest(from, to)` returns false exactly when a floor
is out of `[1, N]`, independent of the current mode; a submission equal (by
pair) to a pending emergency request returns true without adding a second
entry; and an accepted submission while not in emergency mode switches
emergency mode on and pauses the normal store. -/
theorem C8_add_emergency_request (s : ElevatorSystem) (h : Reachable s) (f t : Int) :
    ((s.add_emergency_request f t).1 = false ↔
      ¬ (1 ≤ f ∧ f ≤ s.num_floors ∧ 1 ≤ t ∧ t ≤ s.num_floors)) ∧
    ((f, t) ∈ s.queue_manager.emergency_requests →
      (s.add_emergency_request f t).1 = true ∧
      (s.add_emergency_request f t).2.queue_manager.emergency_requests =
        s.queue_manager.emergency_requests) ∧
    (s.emergency_mode = false →
      (1 ≤ f ∧ f ≤ s.num_floors ∧ 1 ≤ t ∧ t ≤ s.num_floors) →
      (s.add_emergency_request f t).2.emergency_mode = true ∧
      (s.add_emergency_request f t).2.queue_manager.is_paused = true) := by
  have hInv := inv_reachable s h
  have hwq := hInv.wq
  refine ⟨?_, ?_, ?_⟩
  · rw [add_emergency_sys_fst, add_emergency_result, hwq]
    exact decide_eq_false_iff_not
  · intro hmem
    have hr0 := hInv.remerg (f, t) hmem
    have hr : 1 ≤ f ∧ f ≤ s.queue_manager.num_floors ∧
        1 ≤ t ∧ t ≤ s.queue_manager.num_floors := by
      rw [hwq]
      exact ⟨hr0.1, hr0.2.1, hr0.2.2.1, hr0.2.2.2⟩
    have hq : s.queue_manager.add_emergency_request f t = (true, s.queue_manager) := by
      unfold QueueManager.add_emergency_request
      rw [if_neg (not_not_intro hr), if_pos hmem]
    constructor
    · rw [add_emergency_sys_fst, hq]
    · unfold ElevatorSystem.add_emergency_request
      rw [hq]
      show (({ s with queue_manager := s.queue_manager } :
        ElevatorSystem).trigger_emergency).queue_manager.emergency_requests =
          s.queue_manager.emergency_requests
      unfold ElevatorSystem.trigger_emergency
      split_ifs
      · rfl
      · simp
  · intro hm0 hrange
    have hr : 1 ≤ f ∧ f ≤ s.queue_manager.num_floors ∧
        1 ≤ t ∧ t ≤ s.queue_manager.num_floors := by
      rw [hwq]
      exact hrange
    have hempty : s.queue_manager.emergency_requests = [] := by
      by_contra hx
      have hmt := hInv.mode.mpr hx
      rw [hm0] at hmt
      cases hmt
    have hnotmem : (f, t) ∉ s.queue_manager.emergency_requests := by
      rw [hempty]
      simp
    have hq : s.queue_manager.add_emergency_request f t =
        (true, { s.queue_manager with
          emergency_requests := s.queue_manager.emergency_requests ++ [(f, t)]
          request_times := insertSet (RKey.emergency f t) s.queue_manager.request_times }) := by
      unfold QueueManager.add_emergency_request
      rw [if_neg (not_not_intro hr), if_neg hnotmem]
    unfold ElevatorSystem.add_emergency_request
    rw [hq]
    show ((({ s with queue_manager := { s.queue_manager with
        emergency_requests := s.queue_manager.emergency_requests ++ [(f, t)]
        request_times := insertSet (RKey.emergency f t) s.queue_manager.request_times } } :
      ElevatorSystem).trigger_emergency).emergency_mode = true ∧
      (({ s with queue_manager := { s.queue_manager with
        emergency_requests := s.queue_manager.emergency_requests ++ [(f, t)]
        request_times := insertSet (RKey.emergency f t) s.queue_manager.request_times } } :
      ElevatorSystem).trigger_emergency).queue_manager.is_paused = true)
    unfold ElevatorSystem.trigger_emergency
    rw [if_neg (show ¬ (({ s with queue_manager := { s.queue_manager with
        emergency_requests := s.queue_manager.emergency_requests ++ [(f, t)]
        request_times := insertSet (RKey.emergency f t) s.queue_manager.request_times } } :
      ElevatorSystem).emergency_mode = true) by simpa using (by rw [hm0]; simp :
        ¬ (s.emergency_mode = true)))]
    exact ⟨rfl, by simp⟩

/-- C8 witness: the three facts at the initial 10-floor state with the
submission emergency(4, 10). -/
theorem C8_witness :
    (((ElevatorSystem.init 10 3 Direction.up).add_emergency_request 4 10).1 = false ↔
      ¬ (1 ≤ (4 : Int) ∧ (4 : Int) ≤ (ElevatorSystem.init 10 3 Direction.up).num_floors ∧
         1 ≤ (10 : Int) ∧ (10 : Int) ≤ (ElevatorSystem.init 10 3 Direction.up).num_floors)) ∧
    ((ElevatorSystem.init 10 3 Direction.up).emergency_mode = false →
      (1 ≤ (4 : Int) ∧ (4 : Int) ≤ (ElevatorSystem.init 10 3 Direction.up).num_floors ∧
       1 ≤ (10 : Int) ∧ (10 : Int) ≤ (ElevatorSystem.init 10 3 Direction.up).num_floors) →
      ((ElevatorSystem.init 10 3 Direction.up).add_emergency_request 4 10).2.emergency_mode =
        true ∧
      ((ElevatorSystem.init 10 3
        Direction.up).add_emergency_request 4 10).2.queue_manager.is_paused = true) :=
  ⟨(C8_add_emergency_request (ElevatorSystem.init 10 3 Direction.up)
      (Reachable.init 10 3 Direction.up (by decide) (by decide)) 4 10).1,
   (C8_add_emergency_request (ElevatorSystem.init 10 3 Direction.up)
      (Reachable.init 10 3 Direction.up (by decide) (by decide)) 4 10).2.2⟩

/-- C9: the public normal-request submissions return false exactly when
emergency mode is active or the floor is out of `[1, N]`; and, while not in
emergency mode, re-submitting an already-pending request returns true and
leaves the whole engine state unchanged. -/
theorem C9_add_normal_requests (s : ElevatorSystem) (h : Reachable s)
    (floor : Int) (d : Direction) :
    ((s.add_internal_request floor).1 =
      (! s.emergency_mode && decide (1 ≤ floor ∧ floor ≤ s.num_floors))) ∧
    ((s.add_external_request floor d).1 =
      (! s.emergency_mode && decide (1 ≤ floor ∧ floor ≤ s.num_floors))) ∧
    (s.emergency_mode = false → floor ∈ s.queue_manager.internal_requests →
      s.add_internal_request floor = (true, s)) ∧
    (s.emergency_mode = false →
      floor ∈ (if d = Direction.up then s.queue_manager.external_up_requests
        else s.queue_manager.external_down_requests) →
      s.add_external_request floor d = (true, s)) := by
  have hInv := inv_reachable s h
  have hwq := hInv.wq
  by_cases hm : s.emergency_mode = true
  · refine ⟨?_, ?_, ?_, ?_⟩
    · unfold ElevatorSystem.add_internal_request
      rw [if_pos hm, hm]
      rfl
    · unfold ElevatorSystem.add_external_request
      rw [if_pos hm, hm]
      rfl
    · intro hm0
      rw [hm] at hm0
      cases hm0
    · intro hm0
      rw [hm] at hm0
      cases hm0
  · have hm0 : s.emergency_mode = false := by
      cases hb : s.emergency_mode
      · rfl
      · exact absurd hb hm
    have hps : s.queue_manager.is_paused = false := hInv.paused.trans hm0
    refine ⟨?_, ?_, ?_, ?_⟩
    · unfold ElevatorSystem.add_internal_request
      rw [if_neg hm, hm0]
      rcases hq : s.queue_manager.add_internal_request floor with ⟨r, q⟩
      have := add_internal_result s.queue_manager floor
      rw [hq] at this
      simp only at this
      rw [show (((r, q).1, ({ s with queue_manager := (r, q).2 } :
        ElevatorSystem))).1 = r from rfl]
      rw [this, hwq]
      simp
    · unfold ElevatorSystem.add_external_request
      rw [if_neg hm, hm0]
      rcases hq : s.queue_manager.add_external_request floor d with ⟨r, q⟩
      have := add_external_result s.queue_manager floor d
      rw [hq] at this
      simp only at this
      rw [show (((r, q).1, ({ s with queue_manager := (r, q).2 } :
        ElevatorSystem))).1 = r from rfl]
      rw [this, hwq]
      simp
    · intro _ hmem
      have hr0 := hInv.rint floor hmem
      have hr : 1 ≤ floor ∧ floor ≤ s.queue_manager.num_floors := by
        rw [hwq]
        exact hr0
      have hq : s.queue_manager.add_internal_request floor = (true, s.queue_manager) := by
        unfold QueueManager.add_internal_request
        rw [if_neg (not_not_intro hr),
          if_neg (show ¬ (s.queue_manager.is_paused = true) by simp [hps]),
          if_pos hmem]
      unfold ElevatorSystem.add_internal_request
      rw [if_neg hm, hq]
    · intro _ hmem
      unfold ElevatorSystem.add_external_request
      rw [if_neg hm]
      by_cases hdir : d = Direction.up
      · rw [if_pos hdir] at hmem
        have hr0 := hInv.rup floor hmem
        have hr : 1 ≤ floor ∧ floor ≤ s.queue_manager.num_floors := by
          rw [hwq]
          exact hr0
        have hq : s.queue_manager.add_external_request floor d =
            (true, s.queue_manager) := by
          unfold QueueManager.add_external_request
          rw [if_neg (not_not_intro hr),
            if_neg (show ¬ (s.queue_manager.is_paused = true) by simp [hps]),
            if_pos hdir, if_pos hmem]
        rw [hq]
      · rw [if_neg hdir] at hmem
        have hr0 := hInv.rdown floor hmem
        have hr : 1 ≤ floor ∧ floor ≤ s.queue_manager.num_floors := by
          rw [hwq]
          exact hr0
        have hq : s.queue_manager.add_external_request floor d =
            (true, s.queue_manager) := by
          unfold QueueManager.add_external_request
          rw [if_neg (not_not_intro hr),
            if_neg (show ¬ (s.queue_manager.is_paused = true) by simp [hps]),
            if_neg hdir, if_pos hmem]
        rw [hq]

/-- C9 witness: at a reachable state with a pending internal request at
floor 5 and a pending external-up request at floor 7 (mode off),
re-submitting each is accepted and leaves the state unchanged, and the
return values match the mode/range characterization. -/
theorem C9_witness :
    ((applyOp (applyOp (ElevatorSystem.init 10 3 Direction.up)
        (Op.addInternal 5)) (Op.addExternal 7 Direction.up)).add_internal_request 5 =
      (true, applyOp (applyOp (ElevatorSystem.init 10 3 Direction.up)
        (Op.addInternal 5)) (Op.addExternal 7 Direction.up))) ∧
    ((applyOp (applyOp (ElevatorSystem.init 10 3 Direction.up)
        (Op.addInternal 5)) (Op.addExternal 7 Direction.up)).add_external_request 7
          Direction.up =
      (true, applyOp (applyOp (ElevatorSystem.init 10 3 Direction.up)
        (Op.addInternal 5)) (Op.addExternal 7 Direction.up))) :=
  ⟨(C9_add_normal_requests _
      (Reachable.op _ (Op.addExternal 7 Direction.up) (Reachable.op _ (Op.addInternal 5)
        (Reachable.init 10 3 Direction.up (by decide) (by decide)))) 5
      Direction.up).2.2.1 (by decide) (by decide),
   (C9_add_normal_requests _
      (Reachable.op _ (Op.addExternal 7 Direction.up) (Reachable.op _ (Op.addInternal 5)
        (Reachable.init 10 3 Direction.up (by decide) (by decide)))) 7
      Direction.up).2.2.2 (by decide) (by decide)⟩

end PQLift



